import Mathlib

/-!
# Gravitational N-body simulator with orbit-completion detector

A shallow embedding of `script.js`: the unit scaling (`calcOrbitalVelocity`),
the body registry (`planetConfigs`, `createPlanets`, `addPlanet`,
`removePlanet`, `updateConfig`, `resetSimulation`), the integrator
(`updatePhysics`) and the revolution detector (`checkOrbitCompletion`).

Numbers are exact rationals.  The two library functions without an exact
rational value, `Math.sqrt` and `Math.atan2`, are parameters (`JsMath`), so
every theorem holds for whatever these functions return.  Rendering (meshes,
scene, DOM text) is left out; the calls of `updateOrbitDisplay` are kept as a
list of display records.

The integrator and the detector run on bodies whose properties hold numbers.
`updateConfig` can leave a string in a property; the configuration objects
and the bodies that `createPlanets` builds from them are then kept with the
values they hold (`StoredConfig`, `StoredPlanet`).
-/

namespace Thurs3

/-! ## Host functions and constants -/

/-- The functions of the host `Math` object that the script calls and that are
not rational functions. -/
structure JsMath where
  sqrt : ℚ → ℚ
  atan2 : ℚ → ℚ → ℚ

/-- `Math.PI`, the double nearest to pi, as an exact rational. -/
def PI : ℚ := 884279719003555 / 281474976710656

/-- `const DIST_SCALE = 1e6`. -/
def DIST_SCALE : ℚ := 1e6

/-- `const MASS_SCALE = 1e24`. -/
def MASS_SCALE : ℚ := 1e24

/-- `const G_SI = 6.67430e-20`. -/
def G_SI : ℚ := 6.67430e-20

/-- `const G = G_SI * Math.pow(DIST_SCALE, -3) * MASS_SCALE`. -/
def G : ℚ := G_SI * DIST_SCALE ^ (-3 : ℤ) * MASS_SCALE

/-- The JavaScript expression `a || b` on numbers: `b` when `a` is zero. -/
def orElse (a b : ℚ) : ℚ := if a = 0 then b else a

/-! ## THREE.Vector3 -/

/-- A `THREE.Vector3`. -/
structure Vector3 where
  x : ℚ
  y : ℚ
  z : ℚ
deriving DecidableEq, Repr

namespace Vector3

/-- `new THREE.Vector3().subVectors(a, b)`. -/
def subVectors (a b : Vector3) : Vector3 := ⟨a.x - b.x, a.y - b.y, a.z - b.z⟩

/-- `a.add(v)`. -/
def add (a v : Vector3) : Vector3 := ⟨a.x + v.x, a.y + v.y, a.z + v.z⟩

/-- `a.multiplyScalar(s)`. -/
def multiplyScalar (a : Vector3) (s : ℚ) : Vector3 := ⟨a.x * s, a.y * s, a.z * s⟩

/-- `a.divideScalar(s)`, which three.js computes as `multiplyScalar(1 / s)`. -/
def divideScalar (a : Vector3) (s : ℚ) : Vector3 := a.multiplyScalar (1 / s)

/-- `a.dot(v)`. -/
def dot (a v : Vector3) : ℚ := a.x * v.x + a.y * v.y + a.z * v.z

/-- `new THREE.Vector3().crossVectors(a, b)`, also `a.clone().cross(b)`. -/
def crossVectors (a b : Vector3) : Vector3 :=
  ⟨a.y * b.z - a.z * b.y, a.z * b.x - a.x * b.z, a.x * b.y - a.y * b.x⟩

/-- `a.length()`. -/
def length (M : JsMath) (a : Vector3) : ℚ := M.sqrt (a.x * a.x + a.y * a.y + a.z * a.z)

/-- `a.distanceToSquared(v)`. -/
def distanceToSquared (a v : Vector3) : ℚ :=
  let dx := a.x - v.x
  let dy := a.y - v.y
  let dz := a.z - v.z
  dx * dx + dy * dy + dz * dz

/-- `a.distanceTo(v)`. -/
def distanceTo (M : JsMath) (a v : Vector3) : ℚ := M.sqrt (a.distanceToSquared v)

/-- `a.normalize()`, which three.js computes as `divideScalar(length() || 1)`. -/
def normalize (M : JsMath) (a : Vector3) : Vector3 := a.divideScalar (orElse (a.length M) 1)

end Vector3

/-! ## Bodies -/

/-- An entry of `planetConfigs`. -/
structure PlanetConfig where
  name : String
  mass : ℚ
  radius : ℚ
  x : ℚ
  y : ℚ
  z : ℚ
  vx : ℚ
  vy : ℚ
  vz : ℚ
  color : String
deriving DecidableEq, Repr

/-- An entry of `planets`: the body and its orbit-detection properties.  The
`mesh` is rendering state and is left out. -/
structure Planet where
  mass : ℚ
  position : Vector3
  velocity : Vector3
  trail : List Vector3
  centerPosition : Vector3
  prevRelPos : Vector3
  angularMomentum : Vector3
  initialPosition : Vector3
  initialRadius : ℚ
  angleAccumulated : ℚ
  orbitCount : ℕ
  pendingOrbitCount : ℕ
  lastDetectionDistance : WithTop ℚ
  lastDetectionFrame : ℤ
deriving DecidableEq

/-- The body that the callback of `planetConfigs.forEach` in `createPlanets`
builds and pushes for one configuration. -/
def newPlanet (M : JsMath) (config : PlanetConfig) : Planet :=
  let position : Vector3 := ⟨config.x, config.y, config.z⟩
  let velocity : Vector3 := ⟨config.vx, config.vy, config.vz⟩
  let centerPosition : Vector3 := ⟨0, 0, 0⟩
  let rel0 := Vector3.subVectors position centerPosition
  { mass := config.mass
    position := position
    velocity := velocity
    trail := []
    centerPosition := centerPosition
    prevRelPos := rel0
    angularMomentum := (Vector3.crossVectors rel0 velocity).normalize M
    initialPosition := rel0
    initialRadius := rel0.length M
    angleAccumulated := 0
    orbitCount := 0
    pendingOrbitCount := 0
    lastDetectionDistance := ⊤
    lastDetectionFrame := 0 }

/-! ## Orbit detector -/

/-- One call `updateOrbitDisplay(planetIndex, orbitCount, simTime)`; `isPending`
is the status that the function derives from the planet at the time of the
call. -/
structure OrbitDisplay where
  planetIndex : ℕ
  orbitCount : ℕ
  simTime : ℚ
  isPending : Bool
deriving DecidableEq, Repr

/-- `updateOrbitDisplay`, called on the planet `planets[planetIndex]`. -/
def updateOrbitDisplay (planet : Planet) (planetIndex orbitCount : ℕ) (simTime : ℚ) :
    OrbitDisplay :=
  { planetIndex := planetIndex
    orbitCount := orbitCount
    simTime := simTime
    isPending := decide (planet.pendingOrbitCount > 0 ∧ planet.pendingOrbitCount = orbitCount) }

/-- `rel` of `checkOrbitCompletion`: the position relative to the centre. -/
def relPos (planet : Planet) : Vector3 :=
  Vector3.subVectors planet.position planet.centerPosition

/-- `dist0` of `checkOrbitCompletion`. -/
def dist0 (M : JsMath) (planet : Planet) : ℚ :=
  (relPos planet).distanceTo M planet.initialPosition

/-- `threshold` of `checkOrbitCompletion`. -/
def threshold (planet : Planet) : ℚ :=
  let r0 := planet.initialRadius
  r0 * 0.10

/-- The signed `delta` of section 1 of `checkOrbitCompletion`. -/
def angleDelta (M : JsMath) (planet : Planet) : ℚ :=
  let rel := relPos planet
  let cross := Vector3.crossVectors planet.prevRelPos rel
  let dot := planet.prevRelPos.dot rel
  let delta := M.atan2 (cross.length M) dot
  if cross.dot planet.angularMomentum < 0 then -delta else delta

/-- Section 1 of `checkOrbitCompletion`: accumulate the angle difference. -/
def accumulateAngle (M : JsMath) (planet : Planet) : Planet :=
  { planet with
    angleAccumulated := planet.angleAccumulated + angleDelta M planet
    prevRelPos := relPos planet }

/-- Section 2 of `checkOrbitCompletion`: start a pending revolution. -/
def startPending (planet : Planet) (planetIndex : ℕ) (currentTime : ℚ) (currentFrame : ℤ) :
    Planet × List OrbitDisplay :=
  if planet.angleAccumulated ≥ 2 * PI ∧ planet.pendingOrbitCount = 0 then
    let planet := { planet with
      pendingOrbitCount := planet.orbitCount + 1
      lastDetectionDistance := ⊤
      lastDetectionFrame := currentFrame }
    (planet, [updateOrbitDisplay planet planetIndex planet.pendingOrbitCount currentTime])
  else
    (planet, [])

/-- Section 3 of `checkOrbitCompletion`: refine the closest approach. -/
def updateClosest (planet : Planet) (planetIndex : ℕ) (dist0 threshold : ℚ) (currentFrame : ℤ) :
    Planet × List OrbitDisplay :=
  if planet.pendingOrbitCount > 0 ∧ dist0 < threshold then
    if (dist0 : WithTop ℚ) < planet.lastDetectionDistance then
      let planet := { planet with
        lastDetectionDistance := (dist0 : WithTop ℚ)
        lastDetectionFrame := currentFrame }
      let detectionTime : ℚ := (planet.lastDetectionFrame : ℚ) / 60
      (planet, [updateOrbitDisplay planet planetIndex planet.pendingOrbitCount detectionTime])
    else
      (planet, [])
  else
    (planet, [])

/-- Section 4 of `checkOrbitCompletion`: confirm the pending revolution. -/
def confirmOrbit (planet : Planet) (planetIndex : ℕ) (dist0 threshold : ℚ) :
    Planet × List OrbitDisplay :=
  if planet.pendingOrbitCount > 0 ∧ dist0 > threshold * 2 then
    let planet := { planet with
      orbitCount := planet.pendingOrbitCount
      pendingOrbitCount := 0
      angleAccumulated := planet.angleAccumulated - 2 * PI }
    let detectionTime : ℚ := (planet.lastDetectionFrame : ℚ) / 60
    (planet, [updateOrbitDisplay planet planetIndex planet.orbitCount detectionTime])
  else
    (planet, [])

/-- `checkOrbitCompletion(planet, planetIndex, currentTime)`: the planet
afterwards and the display calls made, in order. -/
def checkOrbitCompletion (M : JsMath) (planet : Planet) (planetIndex : ℕ) (currentTime : ℚ) :
    Planet × List OrbitDisplay :=
  let dist0 := dist0 M planet
  let threshold := threshold planet
  let planet := accumulateAngle M planet
  let currentFrame : ℤ := ⌊currentTime * 60⌋
  let s2 := startPending planet planetIndex currentTime currentFrame
  let s3 := updateClosest s2.1 planetIndex dist0 threshold currentFrame
  let s4 := confirmOrbit s3.1 planetIndex dist0 threshold
  (s4.1, s2.2 ++ s3.2 ++ s4.2)

/-- Whether the call `checkOrbitCompletion(planet, planetIndex, currentTime)` takes the
confirming branch of section 4. -/
def confirms (M : JsMath) (planet : Planet) (planetIndex : ℕ) (currentTime : ℚ) : Prop :=
  let currentFrame : ℤ := ⌊currentTime * 60⌋
  let s2 := startPending (accumulateAngle M planet) planetIndex currentTime currentFrame
  let s3 := updateClosest s2.1 planetIndex (dist0 M planet) (threshold planet) currentFrame
  s3.1.pendingOrbitCount > 0 ∧ dist0 M planet > threshold planet * 2

instance (M : JsMath) (planet : Planet) (planetIndex : ℕ) (currentTime : ℚ) :
    Decidable (confirms M planet planetIndex currentTime) := by
  unfold confirms; exact inferInstance

/-- A call of `checkOrbitCompletion` as the integrator makes it: the planet's
position has been moved to `position` since the previous call. -/
structure OrbitCall where
  position : Vector3
  planetIndex : ℕ
  currentTime : ℚ
deriving DecidableEq, Repr

/-- The planet as `checkOrbitCompletion` receives it at a call. -/
def atCall (planet : Planet) (c : OrbitCall) : Planet :=
  { planet with position := c.position }

/-- The planet after one call. -/
def applyCall (M : JsMath) (planet : Planet) (c : OrbitCall) : Planet :=
  (checkOrbitCompletion M (atCall planet c) c.planetIndex c.currentTime).1

/-- The planet after a sequence of calls. -/
def runCalls (M : JsMath) (planet : Planet) (calls : List OrbitCall) : Planet :=
  calls.foldl (applyCall M) planet

/-! ## Simulation state -/

/-- The module-level variables `planets`, `isRunning`, `time` and
`planetConfigs`. -/
structure SimState where
  planets : List Planet
  isRunning : Bool
  time : ℚ
  planetConfigs : List PlanetConfig
deriving DecidableEq

/-- `createPlanets()`: the body list is rebuilt from the configurations. -/
def createPlanets (M : JsMath) (s : SimState) : SimState :=
  { s with planets := s.planetConfigs.map (newPlanet M) }

/-- `toggleSimulation()`. -/
def toggleSimulation (s : SimState) : SimState :=
  { s with isRunning := !s.isRunning }

/-- `clearTrails()`. -/
def clearTrails (s : SimState) : SimState :=
  { s with planets := s.planets.map (fun planet => { planet with trail := [] }) }

/-- The callback of `planetConfigs.forEach` in `resetSimulation`, run on the
current body list. -/
def resetBody (M : JsMath) (planets : List Planet) (config : PlanetConfig) (index : ℕ) :
    List Planet :=
  match planets[index]? with
  | none => planets
  | some planet =>
    let planet := { planet with
      position := ⟨config.x, config.y, config.z⟩
      velocity := ⟨config.vx, config.vy, config.vz⟩ }
    let planet :=
      if index > 0 then
        let rel0 := Vector3.subVectors planet.position planet.centerPosition
        { planet with
          prevRelPos := rel0
          angularMomentum := (Vector3.crossVectors rel0 planet.velocity).normalize M
          initialPosition := rel0
          initialRadius := rel0.length M
          angleAccumulated := 0
          orbitCount := 0
          pendingOrbitCount := 0
          lastDetectionDistance := ⊤
          lastDetectionFrame := 0 }
      else planet
    planets.set index planet

/-- `resetSimulation()`. -/
def resetSimulation (M : JsMath) (s : SimState) : SimState :=
  let s := if s.isRunning then toggleSimulation s else s
  let s := { s with time := 0 }
  let s := clearTrails s
  let s := createPlanets M s
  { s with
    planets := s.planetConfigs.enum.foldl (fun planets ic => resetBody M planets ic.2 ic.1)
      s.planets }

/-- The index at which `Array.prototype.splice(start, ...)` starts on an array
of `len` elements. -/
def spliceStart (len : ℕ) (start : ℤ) : ℕ :=
  if start < 0 then (max ((len : ℤ) + start) 0).toNat else min start.toNat len

/-- The array after `splice(start, deleteCount)`. -/
def splice {α : Type} (l : List α) (start : ℤ) (deleteCount : ℕ) : List α :=
  let actualStart := spliceStart l.length start
  let actualDeleteCount := min deleteCount (l.length - actualStart)
  l.take actualStart ++ l.drop (actualStart + actualDeleteCount)

/-- `removePlanet(index)`. -/
def removePlanet (M : JsMath) (s : SimState) (index : ℤ) : SimState :=
  if index = 0 then s
  else createPlanets M { s with planetConfigs := splice s.planetConfigs index 1 }

/-! ## Integrator -/

/-- The callback of the inner `planets.forEach` of `updatePhysics`: the force
on `planet` (index `i`) after visiting `otherPlanet` (index `j`). -/
def accumulateForce (M : JsMath) (planet : Planet) (i : ℕ) (force : Vector3) (j : ℕ)
    (otherPlanet : Planet) : Vector3 :=
  if i = j then force
  else
    let r := Vector3.subVectors otherPlanet.position planet.position
    let distance := r.length M
    if distance > 0 then
      let forceMagnitude := G * planet.mass * otherPlanet.mass / (distance * distance)
      force.add ((r.normalize M).multiplyScalar forceMagnitude)
    else force

/-- The `force` on `planet` (index `i`) after the inner loop over the body list
as it stands. -/
def netForce (M : JsMath) (planets : List Planet) (i : ℕ) (planet : Planet) : Vector3 :=
  planets.enum.foldl (fun force jo => accumulateForce M planet i force jo.1 jo.2) ⟨0, 0, 0⟩

/-- The trail after `trail.push(position)` and the conditional `trail.shift()`. -/
def pushTrail (trail : List Vector3) (position : Vector3) : List Vector3 :=
  let trail := trail ++ [position]
  if trail.length > 500 then trail.tail else trail

/-- The rest of the outer callback of `updatePhysics` once `force` is known:
velocity, position, trail, and the orbit check for every body but the first. -/
def advancePlanet (M : JsMath) (dt time : ℚ) (i : ℕ) (planet : Planet) (force : Vector3) :
    Planet :=
  let acceleration := force.divideScalar planet.mass
  let velocity := planet.velocity.add (acceleration.multiplyScalar dt)
  let position := planet.position.add (velocity.multiplyScalar dt)
  let planet := { planet with
    velocity := velocity
    position := position
    trail := pushTrail planet.trail position }
  if i > 0 then (checkOrbitCompletion M planet i time).1 else planet

/-- The outer callback of `updatePhysics` at index `i`, run on the body list as
it stands. -/
def stepPlanet (M : JsMath) (dt time : ℚ) (planets : List Planet) (i : ℕ) : List Planet :=
  match planets[i]? with
  | none => planets
  | some planet => planets.set i (advancePlanet M dt time i planet (netForce M planets i planet))

/-- The step `parseFloat(timeScale.value) || 1`; `none` is a value that does not
parse. -/
def stepSize (timeScale : Option ℚ) : ℚ :=
  match timeScale with
  | none => 1
  | some v => orElse v 1

/-- `updatePhysics()`, with the parsed content of the `timeScale` input. -/
def updatePhysics (M : JsMath) (s : SimState) (timeScale : Option ℚ) : SimState :=
  if !s.isRunning then s
  else
    let dt := stepSize timeScale
    { s with
      planets := (List.range s.planets.length).foldl (stepPlanet M dt s.time) s.planets
      time := s.time + dt }

/-- The simulation after one tick per entry of `inputs`. -/
def runTicks (M : JsMath) (s : SimState) (inputs : List (Option ℚ)) : SimState :=
  inputs.foldl (updatePhysics M) s

/-- The tick as the specification words it: a first pass computes every
body's force from the positions at the start of the tick, a second pass
integrates every body. -/
def updatePhysicsSnapshot (M : JsMath) (s : SimState) (timeScale : Option ℚ) : SimState :=
  if !s.isRunning then s
  else
    let dt := stepSize timeScale
    let forces := s.planets.enum.map (fun ip => netForce M s.planets ip.1 ip.2)
    { s with
      planets := (s.planets.enum.zip forces).map
        (fun ipf => advancePlanet M dt s.time ipf.1.1 ipf.1.2 ipf.2)
      time := s.time + dt }

/-! ## Predicates used in the statements -/

/-- The counters of a tracker are consistent: nothing pending, or the pending
count is the confirmed count plus one. -/
def CountsOk (planet : Planet) : Prop :=
  planet.pendingOrbitCount = 0 ∨ planet.pendingOrbitCount = planet.orbitCount + 1

/-- On every call of the run, `dist0` is at most twice the `threshold`. -/
def staysWithinBand (M : JsMath) : Planet → List OrbitCall → Prop
  | _, [] => True
  | planet, c :: cs =>
    dist0 M (atCall planet c) ≤ 2 * threshold (atCall planet c) ∧
      staysWithinBand M (applyCall M planet c) cs

/-- The integrator's fields of a body: what `checkOrbitCompletion` never writes. -/
def sameBody (a b : Planet) : Prop :=
  a.mass = b.mass ∧ a.position = b.position ∧ a.velocity = b.velocity ∧ a.trail = b.trail

/-- The outer loop of `updatePhysics` as a sweep: `done` holds the bodies already
advanced, `todo` the bodies still to visit. -/
def sweep (M : JsMath) (dt time : ℚ) : List Planet → List Planet → List Planet
  | done, [] => done
  | done, planet :: rest =>
    sweep M dt time
      (done ++ [advancePlanet M dt time done.length planet
        (netForce M (done ++ planet :: rest) done.length planet)]) rest

/-- The force accumulated for the body at index `i` during the tick: the inner
loop runs over the body list in which the bodies before `i` are already
advanced and the bodies from `i` on are as at the start of the tick. -/
def forceInTick (M : JsMath) (s : SimState) (timeScale : Option ℚ) (i : ℕ) (planet : Planet) :
    Vector3 :=
  netForce M ((updatePhysics M s timeScale).planets.take i ++ s.planets.drop i) i planet

/-- Every trail of the state holds at most 500 samples. -/
def TrailsBounded (s : SimState) : Prop := ∀ p ∈ s.planets, p.trail.length ≤ 500

/-! ## A concrete host and concrete inputs -/

/-- A square root that is exact on squares of rationals: the integer square
roots of numerator and denominator. -/
def sqrtExact (q : ℚ) : ℚ := (Nat.sqrt q.num.toNat : ℚ) / (Nat.sqrt q.den : ℚ)

/-- The values of `Math.atan2` on the coordinate axes (`0`, `PI`, `PI / 2`,
`-PI / 2`); off the axes, the value on the half of the y-axis with the sign of
`y`. -/
def axisAtan2 (y x : ℚ) : ℚ :=
  if y = 0 then (if 0 ≤ x then 0 else PI) else if 0 < y then PI / 2 else -(PI / 2)

/-- A host for concrete evaluations. -/
def ratMath : JsMath := ⟨sqrtExact, axisAtan2⟩

/-- A configuration: a body at `(10, 0, 0)` moving along the y-axis. -/
def demoConfig : PlanetConfig :=
  { name := "demo", mass := 1, radius := 1, x := 10, y := 0, z := 0, vx := 0, vy := 1, vz := 0,
    color := "#ffffff" }

/-- A call with the body at `(11, 0, 0)`, at distance 1 from its start. -/
def nearCall : OrbitCall := { position := ⟨11, 0, 0⟩, planetIndex := 1, currentTime := 0 }

/-- A call with the body at `(20, 0, 0)`, at distance 10 from its start. -/
def farCall : OrbitCall := { position := ⟨20, 0, 0⟩, planetIndex := 1, currentTime := 1 }

/-- A tracker with one revolution pending, the body at `(20, 0, 0)`. -/
def pendingPlanet : Planet :=
  { newPlanet ratMath demoConfig with pendingOrbitCount := 1, position := ⟨20, 0, 0⟩ }


/-- A central body of unit mass at the origin, at rest. -/
def centralConfig : PlanetConfig :=
  { name := "central", mass := 1, radius := 1, x := 0, y := 0, z := 0, vx := 0, vy := 0, vz := 0,
    color := "#ffff00" }

/-- A body at `(2, 0, 0)`, at rest, whose mass makes `G * mass = 1`. -/
def heavyConfig : PlanetConfig :=
  { name := "heavy", mass := 1000000000000000000 / 66743, radius := 1, x := 2, y := 0, z := 0,
    vx := 0, vy := 0, vz := 0, color := "#4444ff" }

/-- A running simulation of the two bodies, freshly created. -/
def twoBodies : SimState :=
  createPlanets ratMath
    { planets := [], isRunning := true, time := 0, planetConfigs := [centralConfig, heavyConfig] }

/-! ## Unit scaling -/

/-- `calcOrbitalVelocity(M_central, r_km)`, over any field of numbers with the
square root it is to use. -/
def calcOrbitalVelocity {K : Type} [DivisionRing K] (sqrt : K → K) (M_central r_km : K) : K :=
  let v_kms := sqrt ((G_SI : K) * M_central / r_km)
  v_kms / (DIST_SCALE : K)

/-- The vector `r` of the inner loop of `updatePhysics`: from `planet` to
`otherPlanet`. -/
def separation (planet otherPlanet : Planet) : Vector3 :=
  Vector3.subVectors otherPlanet.position planet.position

/-! ## Predicates used in the statements: pending windows -/

/-- The call `checkOrbitCompletion(planet, ...)` takes the branch of section 2:
nothing is pending and the angle, with this call's delta added, has reached
`2 * PI`. -/
def entersPending (M : JsMath) (planet : Planet) : Prop :=
  planet.pendingOrbitCount = 0 ∧ planet.angleAccumulated + angleDelta M planet ≥ 2 * PI

/-- No call of the run confirms a revolution. -/
def noneConfirms (M : JsMath) : Planet → List OrbitCall → Prop
  | _, [] => True
  | planet, c :: cs =>
    ¬ confirms M (atCall planet c) c.planetIndex c.currentTime ∧
      noneConfirms M (applyCall M planet c) cs

/-- The pair (`dist0`, `currentFrame`) of a call. -/
def sampleOf (M : JsMath) (planet : Planet) (c : OrbitCall) : ℚ × ℤ :=
  (dist0 M (atCall planet c), ⌊c.currentTime * 60⌋)

/-- The pairs (`dist0`, `currentFrame`) of the calls of a run, in order. -/
def samples (M : JsMath) : Planet → List OrbitCall → List (ℚ × ℤ)
  | _, [] => []
  | planet, c :: cs => sampleOf M planet c :: samples M (applyCall M planet c) cs

/-- The pair (`dist`, `frame`) is the closest approach of the samples: either
no sample is below `threshold`, `dist` is infinite and `frame` is the frame of
the pending entry; or `dist` is the least distance among the samples below
`threshold` and `frame` the frame of the earliest sample with that distance. -/
def IsClosestApproach (threshold : ℚ) (entryFrame : ℤ) (l : List (ℚ × ℤ)) (dist : WithTop ℚ)
    (frame : ℤ) : Prop :=
  (dist = ⊤ ∧ frame = entryFrame ∧ ∀ t ∈ l, ¬ t.1 < threshold) ∨
  (∃ (pre : List (ℚ × ℤ)) (s : ℚ × ℤ) (post : List (ℚ × ℤ)),
    l = pre ++ s :: post ∧ dist = (s.1 : WithTop ℚ) ∧ frame = s.2 ∧ s.1 < threshold ∧
    (∀ t ∈ pre, t.1 < threshold → s.1 < t.1) ∧ (∀ t ∈ post, t.1 < threshold → s.1 ≤ t.1))

/-- While a revolution is pending, the recorded closest distance is infinite
or below the threshold. -/
def ClosestOk (planet : Planet) : Prop :=
  0 < planet.pendingOrbitCount →
    planet.lastDetectionDistance = ⊤ ∨
      planet.lastDetectionDistance < ((threshold planet : ℚ) : WithTop ℚ)

/-- The anchor of a tracker: what `checkOrbitCompletion` reads but never writes. -/
def sameAnchor (a b : Planet) : Prop :=
  a.initialPosition = b.initialPosition ∧ a.initialRadius = b.initialRadius ∧
    a.centerPosition = b.centerPosition ∧ a.angularMomentum = b.angularMomentum

/-- Four calls a quarter turn apart on the circle of radius 24 around the
centre, the last one at `(24, 0, 0)`, at distance 14 from the start of
`demoConfig`. -/
def quarter1 : OrbitCall := { position := ⟨0, 24, 0⟩, planetIndex := 1, currentTime := 1 }

/-- The second quarter turn. -/
def quarter2 : OrbitCall := { position := ⟨-24, 0, 0⟩, planetIndex := 1, currentTime := 2 }

/-- The third quarter turn. -/
def quarter3 : OrbitCall := { position := ⟨0, -24, 0⟩, planetIndex := 1, currentTime := 3 }

/-- The fourth quarter turn. -/
def quarter4 : OrbitCall := { position := ⟨24, 0, 0⟩, planetIndex := 1, currentTime := 4 }

/-- The tracker of `demoConfig` with the accumulated angle `angle` and the body
at `position`, nothing pending. -/
def turned (angle : ℚ) (position : Vector3) : Planet :=
  { newPlanet ratMath demoConfig with
    angleAccumulated := angle, prevRelPos := position, position := position }

/-- The fresh tracker of `demoConfig` after the first three quarter turns. -/
def threeQuarters : Planet :=
  runCalls ratMath (newPlanet ratMath demoConfig) [quarter1, quarter2, quarter3]

/-! ## Configuration edits -/

/-- What a property of a configuration object can hold: a number or a string. -/
inductive ConfigValue
  | num (q : ℚ)
  | str (s : String)
deriving DecidableEq, Repr

/-- The number held, if it is one. -/
def ConfigValue.num? : ConfigValue → Option ℚ
  | .num q => some q
  | .str _ => none

/-- The string held, if it is one. -/
def ConfigValue.str? : ConfigValue → Option String
  | .num _ => none
  | .str s => some s

/-- The properties of a configuration object. -/
inductive Property
  | name | mass | radius | x | y | z | vx | vy | vz | color
deriving DecidableEq, Repr

/-- The properties that `createUI` edits through a number input. -/
def Property.isNumeric : Property → Bool
  | .name => false
  | .color => false
  | _ => true

/-- A configuration object as the script holds it: every property holds a
number or a string. -/
abbrev StoredConfig := Property → ConfigValue

/-- The object of a configuration whose numeric properties hold numbers. -/
def PlanetConfig.toStored (c : PlanetConfig) : StoredConfig
  | .name => .str c.name
  | .mass => .num c.mass
  | .radius => .num c.radius
  | .x => .num c.x
  | .y => .num c.y
  | .z => .num c.z
  | .vx => .num c.vx
  | .vy => .num c.vy
  | .vz => .num c.vz
  | .color => .str c.color

/-- The configuration that an object stands for, when `name` and `color` hold
strings and the other properties hold numbers. -/
def storedToConfig? (o : StoredConfig) : Option PlanetConfig := do
  let name ← (o .name).str?
  let mass ← (o .mass).num?
  let radius ← (o .radius).num?
  let x ← (o .x).num?
  let y ← (o .y).num?
  let z ← (o .z).num?
  let vx ← (o .vx).num?
  let vy ← (o .vy).num?
  let vz ← (o .vz).num?
  let color ← (o .color).str?
  pure { name := name, mass := mass, radius := radius, x := x, y := y, z := z, vx := vx,
         vy := vy, vz := vz, color := color }

/-- The value of `parseFloat(value) || value`; `parseFloat` gives `none` for a
string that does not parse (NaN). -/
def parsedOrRaw (parseFloat : String → Option ℚ) (value : String) : ConfigValue :=
  match parseFloat value with
  | some q => if q = 0 then .str value else .num q
  | none => .str value

/-- The object `planetConfigs[index]` after the assignment
`planetConfigs[index][property] = parseFloat(value) || value`. -/
def assignProperty (parseFloat : String → Option ℚ) (config : PlanetConfig)
    (property : Property) (value : String) : StoredConfig :=
  Function.update config.toStored property (parsedOrRaw parseFloat value)

/-- JavaScript's `ToNumber` on a held value; `toNumber` is the host's conversion
of a string to a number, `none` standing for NaN. -/
def ConfigValue.toNumber (toNumber : String → Option ℚ) : ConfigValue → Option ℚ
  | .num q => some q
  | .str s => toNumber s

/-- An arithmetic operator on two numbers either of which may be NaN (`none`):
the result is NaN as soon as an operand is. -/
def nanLift (f : ℚ → ℚ → ℚ) (a b : Option ℚ) : Option ℚ :=
  match a, b with
  | some x, some y => some (f x y)
  | _, _ => none

/-- The JavaScript expression `a || b` on a number `a` that may be NaN: `b` when
`a` is zero or NaN. -/
def nanOrElse (a : Option ℚ) (b : ℚ) : ℚ :=
  match a with
  | some x => orElse x b
  | none => b

/-- A `THREE.Vector3` that holds the values it was constructed with, numbers or
strings. -/
structure StoredVector3 where
  x : ConfigValue
  y : ConfigValue
  z : ConfigValue
deriving DecidableEq, Repr

/-- A `THREE.Vector3` whose components are numbers or NaN (`none`). -/
structure NanVector3 where
  x : Option ℚ
  y : Option ℚ
  z : Option ℚ
deriving DecidableEq, Repr

namespace NanVector3

/-- `new THREE.Vector3().subVectors(a, b)` where `a` holds stored values: the
operator `-` converts each operand to a number. -/
def subVectors (toNumber : String → Option ℚ) (a : StoredVector3) (b : Vector3) : NanVector3 :=
  ⟨nanLift (fun p q => p - q) (a.x.toNumber toNumber) (some b.x),
   nanLift (fun p q => p - q) (a.y.toNumber toNumber) (some b.y),
   nanLift (fun p q => p - q) (a.z.toNumber toNumber) (some b.z)⟩

/-- `a.clone().cross(b)` where `b` holds stored values: the operator `*`
converts each operand to a number. -/
def cross (toNumber : String → Option ℚ) (a : NanVector3) (b : StoredVector3) : NanVector3 :=
  let b1 := b.x.toNumber toNumber
  let b2 := b.y.toNumber toNumber
  let b3 := b.z.toNumber toNumber
  ⟨nanLift (fun p q => p - q) (nanLift (fun p q => p * q) a.y b3)
      (nanLift (fun p q => p * q) a.z b2),
   nanLift (fun p q => p - q) (nanLift (fun p q => p * q) a.z b1)
      (nanLift (fun p q => p * q) a.x b3),
   nanLift (fun p q => p - q) (nanLift (fun p q => p * q) a.x b2)
      (nanLift (fun p q => p * q) a.y b1)⟩

/-- `a.length()`. -/
def length (M : JsMath) (a : NanVector3) : Option ℚ :=
  (nanLift (fun p q => p + q)
    (nanLift (fun p q => p + q) (nanLift (fun p q => p * q) a.x a.x)
      (nanLift (fun p q => p * q) a.y a.y))
    (nanLift (fun p q => p * q) a.z a.z)).map M.sqrt

/-- `a.multiplyScalar(s)`. -/
def multiplyScalar (a : NanVector3) (s : ℚ) : NanVector3 :=
  ⟨nanLift (fun p q => p * q) a.x (some s), nanLift (fun p q => p * q) a.y (some s),
   nanLift (fun p q => p * q) a.z (some s)⟩

/-- `a.divideScalar(s)`, computed as `multiplyScalar(1 / s)`. -/
def divideScalar (a : NanVector3) (s : ℚ) : NanVector3 := a.multiplyScalar (1 / s)

/-- `a.normalize()`, computed as `divideScalar(length() || 1)`. -/
def normalize (M : JsMath) (a : NanVector3) : NanVector3 :=
  a.divideScalar (nanOrElse (a.length M) 1)

end NanVector3

/-- An entry of `planets` as `createPlanets` builds it from a configuration
object that may hold strings: `mass`, `position` and `velocity` hold the
values of the object as they are, the tracker properties are computed with
JavaScript's arithmetic. -/
structure StoredPlanet where
  mass : ConfigValue
  position : StoredVector3
  velocity : StoredVector3
  trail : List StoredVector3
  centerPosition : Vector3
  prevRelPos : NanVector3
  angularMomentum : NanVector3
  initialPosition : NanVector3
  initialRadius : Option ℚ
  angleAccumulated : ℚ
  orbitCount : ℕ
  pendingOrbitCount : ℕ
  lastDetectionDistance : WithTop ℚ
  lastDetectionFrame : ℤ
deriving DecidableEq

/-- The body that the callback of `planetConfigs.forEach` in `createPlanets`
builds for a configuration object, whatever its properties hold. -/
def newStoredPlanet (M : JsMath) (toNumber : String → Option ℚ) (config : StoredConfig) :
    StoredPlanet :=
  let position : StoredVector3 := ⟨config .x, config .y, config .z⟩
  let velocity : StoredVector3 := ⟨config .vx, config .vy, config .vz⟩
  let centerPosition : Vector3 := ⟨0, 0, 0⟩
  let rel0 := NanVector3.subVectors toNumber position centerPosition
  { mass := config .mass
    position := position
    velocity := velocity
    trail := []
    centerPosition := centerPosition
    prevRelPos := rel0
    angularMomentum := (NanVector3.cross toNumber rel0 velocity).normalize M
    initialPosition := rel0
    initialRadius := rel0.length M
    angleAccumulated := 0
    orbitCount := 0
    pendingOrbitCount := 0
    lastDetectionDistance := ⊤
    lastDetectionFrame := 0 }

/-- A vector of numbers as a vector of held values. -/
def Vector3.toStored (v : Vector3) : StoredVector3 := ⟨.num v.x, .num v.y, .num v.z⟩

/-- A vector of numbers as a vector of numbers or NaN. -/
def Vector3.toNan (v : Vector3) : NanVector3 := ⟨some v.x, some v.y, some v.z⟩

/-- A body all of whose properties hold numbers, as a stored body. -/
def Planet.toStored (p : Planet) : StoredPlanet :=
  { mass := .num p.mass
    position := p.position.toStored
    velocity := p.velocity.toStored
    trail := p.trail.map Vector3.toStored
    centerPosition := p.centerPosition
    prevRelPos := p.prevRelPos.toNan
    angularMomentum := p.angularMomentum.toNan
    initialPosition := p.initialPosition.toNan
    initialRadius := some p.initialRadius
    angleAccumulated := p.angleAccumulated
    orbitCount := p.orbitCount
    pendingOrbitCount := p.pendingOrbitCount
    lastDetectionDistance := p.lastDetectionDistance
    lastDetectionFrame := p.lastDetectionFrame }

/-- The module-level variables when configuration objects may hold strings. -/
structure StoredState where
  planets : List StoredPlanet
  isRunning : Bool
  time : ℚ
  planetConfigs : List StoredConfig

/-- A state whose configurations hold numbers, as a stored state. -/
def SimState.toStored (s : SimState) : StoredState :=
  { planets := s.planets.map Planet.toStored
    isRunning := s.isRunning
    time := s.time
    planetConfigs := s.planetConfigs.map PlanetConfig.toStored }

/-- The state after `planetConfigs[index]` has become the object `stored` and
`createPlanets()` has rebuilt the body list from the configuration objects. -/
def editedState (M : JsMath) (toNumber : String → Option ℚ) (s : SimState) (index : ℕ)
    (stored : StoredConfig) : StoredState :=
  { planets := ((s.planetConfigs.map PlanetConfig.toStored).set index stored).map
      (newStoredPlanet M toNumber)
    isRunning := s.isRunning
    time := s.time
    planetConfigs := (s.planetConfigs.map PlanetConfig.toStored).set index stored }

/-- How a call of `updateConfig` ends: with a `TypeError` when there is no
object at `index`; with the object at `index` holding a string in a numeric
property or a number in `name` or `color`, and the bodies rebuilt from the
objects as they are; or with the body list rebuilt from configurations that
hold numbers. -/
inductive EditOutcome
  | typeError
  | mistyped (index : ℕ) (stored : StoredConfig) (state : StoredState)
  | rebuilt (s : SimState)

/-- `updateConfig(index, property, value)`: the assignment, then
`createPlanets()`. -/
def updateConfig (M : JsMath) (parseFloat toNumber : String → Option ℚ) (s : SimState)
    (index : ℕ) (property : Property) (value : String) : EditOutcome :=
  match s.planetConfigs[index]? with
  | none => .typeError
  | some config =>
    match storedToConfig? (assignProperty parseFloat config property value) with
    | some config' =>
      .rebuilt (createPlanets M { s with planetConfigs := s.planetConfigs.set index config' })
    | none =>
      .mistyped index (assignProperty parseFloat config property value)
        (editedState M toNumber s index (assignProperty parseFloat config property value))

/-- The state that a call of `updateConfig` leaves, when it leaves one. -/
def EditOutcome.state? : EditOutcome → Option StoredState
  | .typeError => none
  | .mistyped _ _ state => some state
  | .rebuilt s => some s.toStored

/-- The tracker initialisation that `addPlanet` repeats on the new body. -/
def initTracker (M : JsMath) (planet : Planet) : Planet :=
  let rel0 := Vector3.subVectors planet.position planet.centerPosition
  { planet with
    prevRelPos := rel0
    angularMomentum := (Vector3.crossVectors rel0 planet.velocity).normalize M
    initialPosition := rel0
    initialRadius := rel0.length M
    angleAccumulated := 0
    orbitCount := 0
    pendingOrbitCount := 0
    lastDetectionDistance := ⊤
    lastDetectionFrame := 0 }

/-- The configuration that `addPlanet` pushes; `color` is the string that the
random colour expression yields. -/
def addedConfig (s : SimState) (color : String) : PlanetConfig :=
  { name := "惑星" ++ toString s.planetConfigs.length
    mass := 10
    x := 200
    y := 0
    z := 0
    vx := 0
    vy := 2
    vz := 0
    color := color
    radius := 5 }

/-- `addPlanet()`. -/
def addPlanet (M : JsMath) (s : SimState) (color : String) : SimState :=
  let s := createPlanets M { s with planetConfigs := s.planetConfigs ++ [addedConfig s color] }
  let newPlanetIndex := s.planets.length - 1
  match s.planets[newPlanetIndex]? with
  | some planet => { s with planets := s.planets.set newPlanetIndex (initTracker M planet) }
  | none => s

/-- The configuration with the numeric property `property` set to `q`. -/
def PlanetConfig.setNumber (c : PlanetConfig) (property : Property) (q : ℚ) : PlanetConfig :=
  match property with
  | .name => c
  | .mass => { c with mass := q }
  | .radius => { c with radius := q }
  | .x => { c with x := q }
  | .y => { c with y := q }
  | .z => { c with z := q }
  | .vx => { c with vx := q }
  | .vy => { c with vy := q }
  | .vz => { c with vz := q }
  | .color => c

/-- The body list is the list of fresh bodies of the configurations. -/
def RebuiltFromConfigs (M : JsMath) (s : SimState) : Prop :=
  s.planets = s.planetConfigs.map (newPlanet M)

/-- A `parseFloat` for the concrete evaluations: an unsigned integer numeral
gives its value and the empty string does not parse.  Strings of another form
are not used in this development; they are mapped to `none`. -/
def digitsParse (value : String) : Option ℚ :=
  match value.toList with
  | [] => none
  | c :: cs =>
    if (c :: cs).all Char.isDigit then
      some (((c :: cs).foldl (fun n d => 10 * n + (d.toNat - 48)) 0 : ℕ) : ℚ)
    else none

/-- A string-to-number conversion for the concrete evaluations: the empty
string gives 0 and an unsigned integer numeral gives its value, as the
host's `Number` does.  Strings of another form are not used in this
development; they are mapped to `none`. -/
def digitsNumber (value : String) : Option ℚ :=
  match value.toList with
  | [] => some 0
  | c :: cs =>
    if (c :: cs).all Char.isDigit then
      some (((c :: cs).foldl (fun n d => 10 * n + (d.toNat - 48)) 0 : ℕ) : ℚ)
    else none

/-! ## Theorems: the concrete host -/

theorem sqrtExact_mul_self (r : ℚ) (h : 0 ≤ r) : sqrtExact (r * r) = r := by
  obtain ⟨n, hn⟩ := Int.eq_ofNat_of_zero_le (Rat.num_nonneg.mpr h)
  unfold sqrtExact
  rw [Rat.mul_self_num, Rat.mul_self_den, hn, ← Int.ofNat_mul, Int.toNat_ofNat, Nat.sqrt_eq,
    Nat.sqrt_eq]
  have := Rat.num_div_den r
  rw [hn] at this
  rw [Int.cast_natCast] at this
  exact this

theorem sqrtExact_one : sqrtExact 1 = 1 := by
  have := sqrtExact_mul_self 1 (by norm_num)
  norm_num at this
  exact this

theorem sqrtExact_hundred : sqrtExact 100 = 10 := by
  have := sqrtExact_mul_self 10 (by norm_num)
  norm_num at this
  exact this

theorem sqrtExact_four : sqrtExact 4 = 2 := by
  have := sqrtExact_mul_self 2 (by norm_num)
  norm_num at this
  exact this

theorem sqrtExact_49_16 : sqrtExact (49 / 16) = 7 / 4 := by
  have := sqrtExact_mul_self (7 / 4) (by norm_num)
  norm_num at this
  exact this

theorem G_val : G = 66743 / 1000000000000000000 := by
  norm_num [G, G_SI, DIST_SCALE, MASS_SCALE]

/-! ## Theorems: orbit detector -/

theorem startPending_orbitCount (planet : Planet) (i : ℕ) (t : ℚ) (f : ℤ) :
    (startPending planet i t f).1.orbitCount = planet.orbitCount := by
  unfold startPending; split_ifs <;> rfl

theorem updateClosest_orbitCount (planet : Planet) (i : ℕ) (d th : ℚ) (f : ℤ) :
    (updateClosest planet i d th f).1.orbitCount = planet.orbitCount := by
  unfold updateClosest; split_ifs <;> rfl

theorem updateClosest_pending (planet : Planet) (i : ℕ) (d th : ℚ) (f : ℤ) :
    (updateClosest planet i d th f).1.pendingOrbitCount = planet.pendingOrbitCount := by
  unfold updateClosest; split_ifs <;> rfl

theorem startPending_countsOk (planet : Planet) (i : ℕ) (t : ℚ) (f : ℤ) (h : CountsOk planet) :
    CountsOk (startPending planet i t f).1 := by
  unfold startPending CountsOk at *; split_ifs <;> simp_all

theorem check_orbitCount (M : JsMath) (planet : Planet) (i : ℕ) (t : ℚ) :
    (checkOrbitCompletion M planet i t).1.orbitCount =
      if confirms M planet i t then
        (startPending (accumulateAngle M planet) i t ⌊t * 60⌋).1.pendingOrbitCount
      else planet.orbitCount := by
  unfold checkOrbitCompletion confirms confirmOrbit
  simp only [updateClosest_pending]
  split_ifs with h
  · simp [updateClosest_pending]
  · simp [updateClosest_orbitCount, startPending_orbitCount, accumulateAngle]

theorem check_pending (M : JsMath) (planet : Planet) (i : ℕ) (t : ℚ) :
    (checkOrbitCompletion M planet i t).1.pendingOrbitCount =
      if confirms M planet i t then 0
      else (startPending (accumulateAngle M planet) i t ⌊t * 60⌋).1.pendingOrbitCount := by
  unfold checkOrbitCompletion confirms confirmOrbit
  simp only [updateClosest_pending]
  split_ifs with h
  · simp
  · simp [updateClosest_pending]

theorem confirms_pending_pos (M : JsMath) (planet : Planet) (i : ℕ) (t : ℚ)
    (h : confirms M planet i t) :
    0 < (startPending (accumulateAngle M planet) i t ⌊t * 60⌋).1.pendingOrbitCount := by
  unfold confirms at h
  simp only [updateClosest_pending] at h
  exact h.1

theorem accumulateAngle_countsOk (M : JsMath) (planet : Planet) (h : CountsOk planet) :
    CountsOk (accumulateAngle M planet) := h

theorem check_step (M : JsMath) (planet : Planet) (i : ℕ) (t : ℚ) (h : CountsOk planet) :
    CountsOk (checkOrbitCompletion M planet i t).1 ∧
    (confirms M planet i t →
      (checkOrbitCompletion M planet i t).1.orbitCount = planet.orbitCount + 1) ∧
    (¬ confirms M planet i t →
      (checkOrbitCompletion M planet i t).1.orbitCount = planet.orbitCount) := by
  have hsp := startPending_countsOk (accumulateAngle M planet) i t ⌊t * 60⌋
    (accumulateAngle_countsOk M planet h)
  have hso := startPending_orbitCount (accumulateAngle M planet) i t ⌊t * 60⌋
  have hao : (accumulateAngle M planet).orbitCount = planet.orbitCount := rfl
  by_cases hc : confirms M planet i t
  · have hpos := confirms_pending_pos M planet i t hc
    have ho := check_orbitCount M planet i t
    have hpd := check_pending M planet i t
    rw [if_pos hc] at ho hpd
    refine ⟨Or.inl hpd, fun _ => ?_, fun hn => absurd hc hn⟩
    rcases hsp with h0 | h1
    · omega
    · rw [ho, h1, hso, hao]
  · have ho := check_orbitCount M planet i t
    have hpd := check_pending M planet i t
    rw [if_neg hc] at ho hpd
    refine ⟨?_, fun hy => absurd hy hc, fun _ => ho⟩
    unfold CountsOk at hsp ⊢
    rw [hpd, ho]
    rw [hso, hao] at hsp
    exact hsp

theorem atCall_countsOk (planet : Planet) (c : OrbitCall) (h : CountsOk planet) :
    CountsOk (atCall planet c) := h

theorem applyCall_countsOk (M : JsMath) (planet : Planet) (c : OrbitCall) (h : CountsOk planet) :
    CountsOk (applyCall M planet c) :=
  (check_step M (atCall planet c) c.planetIndex c.currentTime (atCall_countsOk planet c h)).1

theorem runCalls_countsOk (M : JsMath) (calls : List OrbitCall) :
    ∀ planet : Planet, CountsOk planet → CountsOk (runCalls M planet calls) := by
  induction calls with
  | nil => intro planet h; exact h
  | cons c cs ih => intro planet h; exact ih _ (applyCall_countsOk M planet c h)

theorem runCalls_append (M : JsMath) (planet : Planet) (xs ys : List OrbitCall) :
    runCalls M planet (xs ++ ys) = runCalls M (runCalls M planet xs) ys := by
  unfold runCalls; rw [List.foldl_append]

theorem applyCall_orbitCount_le (M : JsMath) (planet : Planet) (c : OrbitCall)
    (h : CountsOk planet) : planet.orbitCount ≤ (applyCall M planet c).orbitCount := by
  have hs := check_step M (atCall planet c) c.planetIndex c.currentTime (atCall_countsOk planet c h)
  have hat : (atCall planet c).orbitCount = planet.orbitCount := rfl
  unfold applyCall
  by_cases hc : confirms M (atCall planet c) c.planetIndex c.currentTime
  · rw [hs.2.1 hc, hat]; omega
  · rw [hs.2.2 hc, hat]

theorem runCalls_orbitCount_le (M : JsMath) (calls : List OrbitCall) :
    ∀ planet : Planet, CountsOk planet →
      planet.orbitCount ≤ (runCalls M planet calls).orbitCount := by
  induction calls with
  | nil => intro planet _; exact le_refl _
  | cons c cs ih =>
    intro planet h
    exact le_trans (applyCall_orbitCount_le M planet c h) (ih _ (applyCall_countsOk M planet c h))

/-- C1: from a fresh tracker (`orbitCount = 0`, `pendingOrbitCount = 0`), along
every sequence of `checkOrbitCompletion` calls the confirmed `orbitCount` never
decreases, and a single call raises it by exactly 1 when it confirms a
revolution and leaves it unchanged otherwise. -/
theorem orbitCount_monotone_unit_steps (M : JsMath) (planet : Planet)
    (hp : planet.pendingOrbitCount = 0)
    (calls more : List OrbitCall) (c : OrbitCall) :
    (runCalls M planet calls).orbitCount ≤ (runCalls M planet (calls ++ more)).orbitCount ∧
    (confirms M (atCall (runCalls M planet calls) c) c.planetIndex c.currentTime →
      (applyCall M (runCalls M planet calls) c).orbitCount
        = (runCalls M planet calls).orbitCount + 1) ∧
    (¬ confirms M (atCall (runCalls M planet calls) c) c.planetIndex c.currentTime →
      (applyCall M (runCalls M planet calls) c).orbitCount
        = (runCalls M planet calls).orbitCount) := by
  have hok : CountsOk planet := Or.inl hp
  have hrun := runCalls_countsOk M calls planet hok
  have hs := check_step M (atCall (runCalls M planet calls) c) c.planetIndex c.currentTime
    (atCall_countsOk _ c hrun)
  refine ⟨?_, hs.2.1, hs.2.2⟩
  rw [runCalls_append]
  exact runCalls_orbitCount_le M more _ hrun

theorem not_confirms_of_le (M : JsMath) (planet : Planet) (i : ℕ) (t : ℚ)
    (h : dist0 M planet ≤ 2 * threshold planet) : ¬ confirms M planet i t := by
  unfold confirms
  intro hc
  have h2 := hc.2
  rw [mul_comm] at h2
  exact absurd h (not_le.mpr h2)

theorem startPending_pending_of_pos (planet : Planet) (i : ℕ) (t : ℚ) (f : ℤ)
    (h : 0 < planet.pendingOrbitCount) :
    (startPending planet i t f).1.pendingOrbitCount = planet.pendingOrbitCount := by
  unfold startPending
  rw [if_neg]
  intro hc
  omega

theorem startPending_display_pending (planet : Planet) (i : ℕ) (t : ℚ) (f : ℤ) :
    ∀ e ∈ (startPending planet i t f).2, e.isPending = true := by
  unfold startPending
  split_ifs <;> simp [updateOrbitDisplay]

theorem updateClosest_display_pending (planet : Planet) (i : ℕ) (d th : ℚ) (f : ℤ) :
    ∀ e ∈ (updateClosest planet i d th f).2, e.isPending = true := by
  unfold updateClosest
  split_ifs with h1 h2
  · simp [updateOrbitDisplay]; exact h1.1
  · simp
  · simp

theorem check_of_le (M : JsMath) (planet : Planet) (i : ℕ) (t : ℚ)
    (h : dist0 M planet ≤ 2 * threshold planet) :
    (checkOrbitCompletion M planet i t).1.orbitCount = planet.orbitCount ∧
    (0 < planet.pendingOrbitCount →
      (checkOrbitCompletion M planet i t).1.pendingOrbitCount = planet.pendingOrbitCount) ∧
    ∀ e ∈ (checkOrbitCompletion M planet i t).2, e.isPending = true := by
  have hn := not_confirms_of_le M planet i t h
  have ho := check_orbitCount M planet i t
  have hpd := check_pending M planet i t
  rw [if_neg hn] at ho hpd
  refine ⟨ho, fun hpos => ?_, ?_⟩
  · rw [hpd]
    exact startPending_pending_of_pos (accumulateAngle M planet) i t _ hpos
  · intro e he
    have hcf : (confirmOrbit (updateClosest (startPending (accumulateAngle M planet) i t
        ⌊t * 60⌋).1 i (dist0 M planet) (threshold planet) ⌊t * 60⌋).1 i (dist0 M planet)
        (threshold planet)).2 = [] := by
      unfold confirmOrbit
      rw [if_neg]
      exact hn
    unfold checkOrbitCompletion at he
    simp only [hcf, List.append_nil, List.mem_append] at he
    rcases he with he | he
    · exact startPending_display_pending _ _ _ _ e he
    · exact updateClosest_display_pending _ _ _ _ _ e he

theorem runCalls_of_band (M : JsMath) (calls : List OrbitCall) :
    ∀ planet : Planet, staysWithinBand M planet calls →
      (runCalls M planet calls).orbitCount = planet.orbitCount ∧
      (0 < planet.pendingOrbitCount →
        (runCalls M planet calls).pendingOrbitCount = planet.pendingOrbitCount) := by
  induction calls with
  | nil => intro planet _; exact ⟨rfl, fun _ => rfl⟩
  | cons c cs ih =>
    intro planet h
    have h1 := check_of_le M (atCall planet c) c.planetIndex c.currentTime h.1
    have h2 := ih (applyCall M planet c) h.2
    refine ⟨h2.1.trans h1.1, fun hpos => ?_⟩
    have hp1 : (applyCall M planet c).pendingOrbitCount = planet.pendingOrbitCount := h1.2.1 hpos
    rw [← hp1]
    exact h2.2 (by rw [hp1]; exact hpos)

theorem staysWithinBand_split (M : JsMath) (pre : List OrbitCall) :
    ∀ (planet : Planet) (c : OrbitCall) (post : List OrbitCall),
      staysWithinBand M planet (pre ++ c :: post) →
        dist0 M (atCall (runCalls M planet pre) c)
          ≤ 2 * threshold (atCall (runCalls M planet pre) c) := by
  induction pre with
  | nil => intro planet c post h; exact h.1
  | cons a pre ih => intro planet c post h; exact ih (applyCall M planet a) c post h.2

/-- C2: a call of `checkOrbitCompletion` with `dist0` at most `2 * threshold`
confirms nothing: `orbitCount` is unchanged, a pending revolution stays
pending and every display call it makes is a pending one.  So over a run of
calls that all stay within that distance no call confirms and the confirmed
count never moves. -/
theorem no_confirmation_within_band (M : JsMath) (planet : Planet) (calls : List OrbitCall)
    (h : staysWithinBand M planet calls) :
    (∀ (pre : List OrbitCall) (c : OrbitCall) (post : List OrbitCall),
      calls = pre ++ c :: post →
        ¬ confirms M (atCall (runCalls M planet pre) c) c.planetIndex c.currentTime ∧
        (applyCall M (runCalls M planet pre) c).orbitCount
          = (runCalls M planet pre).orbitCount ∧
        (0 < (runCalls M planet pre).pendingOrbitCount →
          (applyCall M (runCalls M planet pre) c).pendingOrbitCount
            = (runCalls M planet pre).pendingOrbitCount) ∧
        ∀ e ∈ (checkOrbitCompletion M (atCall (runCalls M planet pre) c) c.planetIndex
            c.currentTime).2, e.isPending = true) ∧
    (runCalls M planet calls).orbitCount = planet.orbitCount ∧
    (0 < planet.pendingOrbitCount →
      (runCalls M planet calls).pendingOrbitCount = planet.pendingOrbitCount) := by
  refine ⟨fun pre c post hsplit => ?_, runCalls_of_band M calls planet h⟩
  rw [hsplit] at h
  have hle := staysWithinBand_split M pre planet c post h
  have h1 := check_of_le M (atCall (runCalls M planet pre) c) c.planetIndex c.currentTime hle
  exact ⟨not_confirms_of_le M _ _ _ hle, h1.1, h1.2.1, h1.2.2⟩

/-- C3: a call of `checkOrbitCompletion` that confirms a revolution stores as
`angleAccumulated` the previously stored value plus this call's signed angle
delta, minus `2 * PI`. -/
theorem confirmation_carries_remainder (M : JsMath) (planet : Planet) (planetIndex : ℕ)
    (currentTime : ℚ) (h : confirms M planet planetIndex currentTime) :
    (checkOrbitCompletion M planet planetIndex currentTime).1.angleAccumulated =
      planet.angleAccumulated + angleDelta M planet - 2 * PI := by
  have hc : (updateClosest (startPending (accumulateAngle M planet) planetIndex currentTime
      ⌊currentTime * 60⌋).1 planetIndex (dist0 M planet) (threshold planet)
      ⌊currentTime * 60⌋).1.pendingOrbitCount > 0 ∧ dist0 M planet > threshold planet * 2 := h
  have ha : ∀ (p : Planet) (i : ℕ) (t : ℚ) (f : ℤ),
      (startPending p i t f).1.angleAccumulated = p.angleAccumulated := by
    intro p i t f; unfold startPending; split_ifs <;> rfl
  have hb : ∀ (p : Planet) (i : ℕ) (d th : ℚ) (f : ℤ),
      (updateClosest p i d th f).1.angleAccumulated = p.angleAccumulated := by
    intro p i d th f; unfold updateClosest; split_ifs <;> rfl
  unfold checkOrbitCompletion confirmOrbit
  simp only [if_pos hc, ha, hb]
  rfl


/-! ## Theorems: integrator -/

theorem startPending_sameBody (planet : Planet) (i : ℕ) (t : ℚ) (f : ℤ) :
    sameBody (startPending planet i t f).1 planet := by
  unfold startPending sameBody; split_ifs <;> simp

theorem updateClosest_sameBody (planet : Planet) (i : ℕ) (d th : ℚ) (f : ℤ) :
    sameBody (updateClosest planet i d th f).1 planet := by
  unfold updateClosest sameBody; split_ifs <;> simp

theorem confirmOrbit_sameBody (planet : Planet) (i : ℕ) (d th : ℚ) :
    sameBody (confirmOrbit planet i d th).1 planet := by
  unfold confirmOrbit sameBody; split_ifs <;> simp

theorem sameBody_trans {a b c : Planet} (h1 : sameBody a b) (h2 : sameBody b c) : sameBody a c :=
  ⟨h1.1.trans h2.1, h1.2.1.trans h2.2.1, h1.2.2.1.trans h2.2.2.1, h1.2.2.2.trans h2.2.2.2⟩

theorem check_sameBody (M : JsMath) (planet : Planet) (i : ℕ) (t : ℚ) :
    sameBody (checkOrbitCompletion M planet i t).1 planet := by
  unfold checkOrbitCompletion
  refine sameBody_trans (confirmOrbit_sameBody _ _ _ _) ?_
  refine sameBody_trans (updateClosest_sameBody _ _ _ _ _) ?_
  refine sameBody_trans (startPending_sameBody _ _ _ _) ?_
  exact ⟨rfl, rfl, rfl, rfl⟩

theorem advancePlanet_velocity (M : JsMath) (dt time : ℚ) (i : ℕ) (planet : Planet)
    (force : Vector3) :
    (advancePlanet M dt time i planet force).velocity =
      planet.velocity.add ((force.divideScalar planet.mass).multiplyScalar dt) := by
  unfold advancePlanet
  split_ifs
  · exact (check_sameBody M _ i time).2.2.1
  · rfl

theorem advancePlanet_position (M : JsMath) (dt time : ℚ) (i : ℕ) (planet : Planet)
    (force : Vector3) :
    (advancePlanet M dt time i planet force).position =
      planet.position.add ((advancePlanet M dt time i planet force).velocity.multiplyScalar dt) := by
  rw [advancePlanet_velocity]
  unfold advancePlanet
  split_ifs
  · exact (check_sameBody M _ i time).2.1
  · rfl

theorem advancePlanet_trail (M : JsMath) (dt time : ℚ) (i : ℕ) (planet : Planet)
    (force : Vector3) :
    (advancePlanet M dt time i planet force).trail =
      pushTrail planet.trail (advancePlanet M dt time i planet force).position := by
  rw [advancePlanet_position, advancePlanet_velocity]
  unfold advancePlanet
  split_ifs
  · exact (check_sameBody M _ i time).2.2.2
  · rfl

theorem advancePlanet_mass (M : JsMath) (dt time : ℚ) (i : ℕ) (planet : Planet)
    (force : Vector3) : (advancePlanet M dt time i planet force).mass = planet.mass := by
  unfold advancePlanet
  split_ifs
  · exact (check_sameBody M _ i time).1
  · rfl

theorem foldl_stepPlanet_eq_sweep (M : JsMath) (dt time : ℚ) (todo : List Planet) :
    ∀ done : List Planet,
      (List.range' done.length todo.length).foldl (stepPlanet M dt time) (done ++ todo)
        = sweep M dt time done todo := by
  induction todo with
  | nil => intro done; simp [sweep]
  | cons planet rest ih =>
    intro done
    have hget : (done ++ planet :: rest)[done.length]? = some planet := by
      rw [List.getElem?_append_right (le_refl _)]
      simp
    have hstep : stepPlanet M dt time (done ++ planet :: rest) done.length =
        (done ++ [advancePlanet M dt time done.length planet
          (netForce M (done ++ planet :: rest) done.length planet)]) ++ rest := by
      unfold stepPlanet
      rw [hget]
      simp
    have hlen : (done ++ [advancePlanet M dt time done.length planet
          (netForce M (done ++ planet :: rest) done.length planet)]).length
          = done.length + 1 := by simp
    rw [List.length_cons, List.range'_succ, List.foldl_cons, hstep, ← hlen, ih, sweep]

theorem sweep_spec (M : JsMath) (dt time : ℚ) (todo : List Planet) :
    ∀ done : List Planet,
      (sweep M dt time done todo).length = done.length + todo.length ∧
      (sweep M dt time done todo).take done.length = done ∧
      ∀ (j : ℕ) (planet : Planet), todo[j]? = some planet →
        (sweep M dt time done todo)[done.length + j]? =
          some (advancePlanet M dt time (done.length + j) planet
            (netForce M ((sweep M dt time done todo).take (done.length + j) ++ todo.drop j)
              (done.length + j) planet)) := by
  induction todo with
  | nil => intro done; simp [sweep]
  | cons p rest ih =>
    intro done
    obtain ⟨h1, h2, h3⟩ := ih (done ++ [advancePlanet M dt time done.length p
        (netForce M (done ++ p :: rest) done.length p)])
    rw [sweep]
    rw [List.length_append, List.length_singleton] at h1 h2 h3
    have htake : List.take done.length (sweep M dt time (done ++ [advancePlanet M dt time
        done.length p (netForce M (done ++ p :: rest) done.length p)]) rest) = done := by
      have := congrArg (List.take done.length) h2
      rw [List.take_take, Nat.min_eq_left (Nat.le_succ _)] at this
      rw [this]
      simp
    refine ⟨by rw [h1, List.length_cons]; omega, htake, ?_⟩
    intro j planet hj
    cases j with
    | zero =>
      simp only [List.getElem?_cons_zero, Option.some.injEq] at hj
      subst hj
      have hg := congrArg (fun l => l[done.length]?) h2
      simp only [] at hg
      rw [List.getElem?_take_of_lt (Nat.lt_succ_self _)] at hg
      rw [Nat.add_zero, hg, htake]
      simp
    | succ j =>
      simp only [List.getElem?_cons_succ] at hj
      have := h3 j planet hj
      rw [show done.length + (j + 1) = done.length + 1 + j by omega, this]
      simp

theorem updatePhysics_planets (M : JsMath) (s : SimState) (timeScale : Option ℚ)
    (h : s.isRunning = true) :
    (updatePhysics M s timeScale).planets = sweep M (stepSize timeScale) s.time [] s.planets := by
  have := foldl_stepPlanet_eq_sweep M (stepSize timeScale) s.time s.planets []
  simp only [List.length_nil, List.nil_append] at this
  unfold updatePhysics
  rw [h]
  simp only [Bool.not_true, Bool.false_eq_true, if_false]
  rw [List.range_eq_range', this]

theorem updatePhysics_body (M : JsMath) (s : SimState) (timeScale : Option ℚ)
    (h : s.isRunning = true) (i : ℕ) (planet : Planet) (hi : s.planets[i]? = some planet) :
    (updatePhysics M s timeScale).planets[i]? =
      some (advancePlanet M (stepSize timeScale) s.time i planet
        (netForce M ((updatePhysics M s timeScale).planets.take i ++ s.planets.drop i) i planet)) := by
  rw [updatePhysics_planets M s timeScale h]
  have := (sweep_spec M (stepSize timeScale) s.time s.planets []).2.2 i planet hi
  simp only [List.length_nil, Nat.zero_add] at this
  exact this

theorem updatePhysics_length (M : JsMath) (s : SimState) (timeScale : Option ℚ) :
    (updatePhysics M s timeScale).planets.length = s.planets.length := by
  by_cases h : s.isRunning = true
  · rw [updatePhysics_planets M s timeScale h]
    have := (sweep_spec M (stepSize timeScale) s.time s.planets []).1
    simpa using this
  · unfold updatePhysics
    simp [h]

theorem getElem?_zip_map_self {α β : Type} (f : α → β) (l : List α) :
    ∀ i : ℕ, (l.zip (l.map f))[i]? = (l[i]?).map (fun a => (a, f a)) := by
  induction l with
  | nil => intro i; simp
  | cons a l ih =>
    intro i
    cases i with
    | zero => simp
    | succ i => simpa using ih i

theorem updatePhysicsSnapshot_body (M : JsMath) (s : SimState) (timeScale : Option ℚ)
    (h : s.isRunning = true) (i : ℕ) :
    (updatePhysicsSnapshot M s timeScale).planets[i]? =
      (s.planets[i]?).map (fun planet =>
        advancePlanet M (stepSize timeScale) s.time i planet (netForce M s.planets i planet)) := by
  unfold updatePhysicsSnapshot
  rw [h]
  simp only [Bool.not_true, Bool.false_eq_true, if_false]
  rw [List.getElem?_map, getElem?_zip_map_self, List.getElem?_enum]
  cases s.planets[i]? <;> simp
theorem twoBodies_running : twoBodies.isRunning = true := rfl

theorem newPlanet_position (M : JsMath) (c : PlanetConfig) :
    (newPlanet M c).position = ⟨c.x, c.y, c.z⟩ := rfl

theorem newPlanet_velocity (M : JsMath) (c : PlanetConfig) :
    (newPlanet M c).velocity = ⟨c.vx, c.vy, c.vz⟩ := rfl

theorem newPlanet_mass (M : JsMath) (c : PlanetConfig) : (newPlanet M c).mass = c.mass := rfl

theorem twoBodies_planets :
    twoBodies.planets = [newPlanet ratMath centralConfig, newPlanet ratMath heavyConfig] := rfl

theorem twoBodies_first_velocity :
    (advancePlanet ratMath 1 0 0 (newPlanet ratMath centralConfig)
      (netForce ratMath [newPlanet ratMath centralConfig, newPlanet ratMath heavyConfig] 0
        (newPlanet ratMath centralConfig))).velocity = ⟨1 / 4, 0, 0⟩ := by
  rw [advancePlanet_velocity]
  norm_num [netForce, accumulateForce, List.enum, List.enumFrom, Vector3.subVectors,
    Vector3.length, Vector3.normalize, Vector3.add, Vector3.multiplyScalar, Vector3.divideScalar,
    ratMath, orElse, sqrtExact_four, G_val, newPlanet_position, newPlanet_velocity,
    newPlanet_mass, centralConfig, heavyConfig]

theorem twoBodies_first_position :
    (advancePlanet ratMath 1 0 0 (newPlanet ratMath centralConfig)
      (netForce ratMath [newPlanet ratMath centralConfig, newPlanet ratMath heavyConfig] 0
        (newPlanet ratMath centralConfig))).position = ⟨1 / 4, 0, 0⟩ := by
  rw [advancePlanet_position, twoBodies_first_velocity]
  norm_num [Vector3.add, Vector3.multiplyScalar, newPlanet_position, centralConfig]

theorem twoBodies_second_velocity (first : Planet) (h : first.position = ⟨1 / 4, 0, 0⟩)
    (hm : first.mass = 1) :
    (advancePlanet ratMath 1 0 1 (newPlanet ratMath heavyConfig)
      (netForce ratMath [first, newPlanet ratMath heavyConfig] 1
        (newPlanet ratMath heavyConfig))).velocity = ⟨-66743 / 3062500000000000000, 0, 0⟩ := by
  rw [advancePlanet_velocity]
  norm_num [netForce, accumulateForce, List.enum, List.enumFrom, Vector3.subVectors,
    Vector3.length, Vector3.normalize, Vector3.add, Vector3.multiplyScalar, Vector3.divideScalar,
    ratMath, orElse, sqrtExact_49_16, G_val, newPlanet_position, newPlanet_velocity,
    newPlanet_mass, heavyConfig, h, hm]

theorem twoBodies_sequential :
    (updatePhysics ratMath twoBodies (some 1)).planets.map (fun p => p.velocity)
      = [⟨1 / 4, 0, 0⟩, ⟨-66743 / 3062500000000000000, 0, 0⟩] := by
  rw [updatePhysics_planets ratMath twoBodies (some 1) twoBodies_running, twoBodies_planets]
  have hdt : stepSize (some 1) = 1 := by norm_num [stepSize, orElse]
  have ht : twoBodies.time = 0 := rfl
  rw [hdt, ht]
  simp only [sweep, List.nil_append, List.length_nil, List.length_cons, List.length_singleton,
    List.singleton_append, List.map, Nat.zero_add]
  rw [twoBodies_first_velocity,
    twoBodies_second_velocity _ twoBodies_first_position (advancePlanet_mass _ _ _ _ _ _)]


theorem twoBodies_snapshot :
    (updatePhysicsSnapshot ratMath twoBodies (some 1)).planets.map (fun p => p.velocity)
      = [⟨1 / 4, 0, 0⟩, ⟨-66743 / 4000000000000000000, 0, 0⟩] := by
  simp only [updatePhysicsSnapshot, twoBodies_running, twoBodies_planets, List.map,
    List.enum, List.enumFrom, List.zip, List.zipWith, Bool.not_true, Bool.false_eq_true,
    if_false]
  simp only [advancePlanet_velocity]
  norm_num [netForce, accumulateForce, List.enum, List.enumFrom, Vector3.subVectors,
    Vector3.length, Vector3.normalize, Vector3.add, Vector3.multiplyScalar, Vector3.divideScalar,
    ratMath, orElse, sqrtExact_four, G_val, newPlanet_position, newPlanet_velocity,
    newPlanet_mass, centralConfig, heavyConfig, stepSize]

/-- C4 (counterexample): on the two-body state the tick and the two-pass
snapshot tick give the second body different velocities, since its force is
computed from the first body's already advanced position. -/
theorem tick_differs_from_snapshot_tick :
    (updatePhysics ratMath twoBodies (some 1)).planets.map (fun p => p.velocity)
      = [⟨1 / 4, 0, 0⟩, ⟨-66743 / 3062500000000000000, 0, 0⟩] ∧
    (updatePhysicsSnapshot ratMath twoBodies (some 1)).planets.map (fun p => p.velocity)
      = [⟨1 / 4, 0, 0⟩, ⟨-66743 / 4000000000000000000, 0, 0⟩] ∧
    updatePhysics ratMath twoBodies (some 1) ≠ updatePhysicsSnapshot ratMath twoBodies (some 1) := by
  refine ⟨twoBodies_sequential, twoBodies_snapshot, fun h => ?_⟩
  have h1 := twoBodies_sequential
  rw [h, twoBodies_snapshot] at h1
  norm_num at h1

theorem updatePhysics_force_list (M : JsMath) (s : SimState) (timeScale : Option ℚ)
    (i : ℕ) (planet : Planet) (hi : s.planets[i]? = some planet) :
    ((updatePhysics M s timeScale).planets.take i ++ s.planets.drop i)[i]? = some planet := by
  have hlt : i < s.planets.length := by
    by_contra hc
    rw [List.getElem?_eq_none (not_lt.mp hc)] at hi
    exact Option.noConfusion hi
  have hlen : ((updatePhysics M s timeScale).planets.take i).length = i := by
    rw [List.length_take, updatePhysics_length]
    exact Nat.min_eq_left (le_of_lt hlt)
  rw [List.getElem?_append_right (by rw [hlen]), hlen, Nat.sub_self, List.getElem?_drop]
  exact hi

/-- C4 (as amended): in a running tick the bodies are advanced one after
another, and the force on body `i` is accumulated over the body list in which
the bodies before `i` are already advanced in this tick while body `i` and the
bodies after it are as at the start of the tick.  The first body's force uses
the start-of-tick positions only, so it agrees with the two-pass tick. -/
theorem tick_forces_in_place (M : JsMath) (s : SimState) (timeScale : Option ℚ)
    (hrun : s.isRunning = true) (i : ℕ) :
    (updatePhysics M s timeScale).planets.length = s.planets.length ∧
    (updatePhysics M s timeScale).planets[i]? =
      (s.planets[i]?).map (fun planet =>
        advancePlanet M (stepSize timeScale) s.time i planet
          (netForce M ((updatePhysics M s timeScale).planets.take i ++ s.planets.drop i)
            i planet)) ∧
    (updatePhysics M s timeScale).planets[0]? =
      (updatePhysicsSnapshot M s timeScale).planets[0]? := by
  refine ⟨updatePhysics_length M s timeScale, ?_, ?_⟩
  · cases hi : s.planets[i]? with
    | none =>
      have hge : s.planets.length ≤ i := by
        by_contra hc
        rw [List.getElem?_eq_getElem (not_le.mp hc)] at hi
        exact Option.noConfusion hi
      rw [List.getElem?_eq_none (by rw [updatePhysics_length]; exact hge)]
      rfl
    | some planet => exact updatePhysics_body M s timeScale hrun i planet hi
  · rw [updatePhysicsSnapshot_body M s timeScale hrun 0]
    cases h0 : s.planets[0]? with
    | none =>
      have hge : s.planets.length ≤ 0 := by
        by_contra hc
        rw [List.getElem?_eq_getElem (not_le.mp hc)] at h0
        exact Option.noConfusion h0
      rw [List.getElem?_eq_none (by rw [updatePhysics_length]; exact hge)]
      rfl
    | some planet =>
      rw [updatePhysics_body M s timeScale hrun 0 planet h0]
      simp

/-- C5: in a running tick, a body of non-zero mass gets the velocity
`old velocity + (force / mass) * dt`, with the force accumulated while the body
itself is still as at the start of the tick, and the position
`old position + (new velocity) * dt`.  The mass is taken non-zero, where the
exact quotient is what the script's division computes. -/
theorem velocity_then_position (M : JsMath) (s : SimState) (timeScale : Option ℚ)
    (i : ℕ) (planet : Planet) (hrun : s.isRunning = true) (hi : s.planets[i]? = some planet)
    (_hm : planet.mass ≠ 0) :
    ∃ planet' : Planet,
      (updatePhysics M s timeScale).planets[i]? = some planet' ∧
      ((updatePhysics M s timeScale).planets.take i ++ s.planets.drop i)[i]? = some planet ∧
      planet'.velocity =
        ⟨planet.velocity.x + (forceInTick M s timeScale i planet).x / planet.mass
            * stepSize timeScale,
          planet.velocity.y + (forceInTick M s timeScale i planet).y / planet.mass
            * stepSize timeScale,
          planet.velocity.z + (forceInTick M s timeScale i planet).z / planet.mass
            * stepSize timeScale⟩ ∧
      planet'.position =
        ⟨planet.position.x + planet'.velocity.x * stepSize timeScale,
          planet.position.y + planet'.velocity.y * stepSize timeScale,
          planet.position.z + planet'.velocity.z * stepSize timeScale⟩ := by
  refine ⟨_, updatePhysics_body M s timeScale hrun i planet hi,
    updatePhysics_force_list M s timeScale i planet hi, ?_, ?_⟩
  · rw [advancePlanet_velocity]
    simp only [Vector3.add, Vector3.multiplyScalar, Vector3.divideScalar, forceInTick,
      one_div, div_eq_mul_inv, one_mul]
  · rw [advancePlanet_position]
    simp only [Vector3.add, Vector3.multiplyScalar]

theorem pushTrail_length_le (trail : List Vector3) (position : Vector3)
    (h : trail.length ≤ 500) : (pushTrail trail position).length ≤ 500 := by
  have hl : (trail ++ [position]).length = trail.length + 1 := by simp
  unfold pushTrail
  show (if (trail ++ [position]).length > 500 then (trail ++ [position]).tail
    else trail ++ [position]).length ≤ 500
  split_ifs with hc
  · rw [List.length_tail]
    omega
  · omega

theorem pushTrail_of_lt (trail : List Vector3) (position : Vector3) (h : trail.length < 500) :
    pushTrail trail position = trail ++ [position] := by
  have hl : (trail ++ [position]).length = trail.length + 1 := by simp
  unfold pushTrail
  show (if (trail ++ [position]).length > 500 then (trail ++ [position]).tail
    else trail ++ [position]) = trail ++ [position]
  rw [if_neg (by omega)]

theorem pushTrail_of_full (trail : List Vector3) (position : Vector3) (h : trail.length = 500) :
    pushTrail trail position = trail.drop 1 ++ [position] := by
  have hl : (trail ++ [position]).length = trail.length + 1 := by simp
  unfold pushTrail
  show (if (trail ++ [position]).length > 500 then (trail ++ [position]).tail
    else trail ++ [position]) = trail.drop 1 ++ [position]
  rw [if_pos (by omega)]
  cases trail with
  | nil => simp at h
  | cons a l => simp

theorem updatePhysics_trailsBounded (M : JsMath) (s : SimState) (timeScale : Option ℚ)
    (h : TrailsBounded s) : TrailsBounded (updatePhysics M s timeScale) := by
  by_cases hrun : s.isRunning = true
  · intro p hp
    obtain ⟨i, hlt, hget⟩ := List.getElem_of_mem hp
    have hlt' : i < s.planets.length := by rw [← updatePhysics_length M s timeScale]; exact hlt
    have hb := updatePhysics_body M s timeScale hrun i s.planets[i]
      (List.getElem?_eq_getElem hlt')
    rw [List.getElem?_eq_getElem hlt, hget] at hb
    have hp' := Option.some.inj hb
    rw [hp', advancePlanet_trail]
    exact pushTrail_length_le _ _ (h _ (List.getElem_mem hlt'))
  · have : updatePhysics M s timeScale = s := by
      unfold updatePhysics
      simp [hrun]
    rw [this]
    exact h

theorem runTicks_trailsBounded (M : JsMath) (inputs : List (Option ℚ)) :
    ∀ s : SimState, TrailsBounded s → TrailsBounded (runTicks M s inputs) := by
  induction inputs with
  | nil => intro s h; exact h
  | cons ts rest ih => intro s h; exact ih _ (updatePhysics_trailsBounded M s ts h)

theorem createPlanets_trailsBounded (M : JsMath) (s : SimState) :
    TrailsBounded (createPlanets M s) := by
  intro p hp
  simp only [createPlanets, List.mem_map] at hp
  obtain ⟨c, _, rfl⟩ := hp
  exact Nat.zero_le _

theorem clearTrails_trailsBounded (s : SimState) : TrailsBounded (clearTrails s) := by
  intro p hp
  simp only [clearTrails, List.mem_map] at hp
  obtain ⟨q, _, rfl⟩ := hp
  exact Nat.zero_le _

/-- C6: after any number of ticks from a freshly created or a cleared state
every trail holds at most 500 samples.  A running tick appends the body's new
position as the last sample; on a trail of 500 samples it also drops the
first one, the others keeping their order. -/
theorem trail_capacity (M : JsMath) (s : SimState) (inputs : List (Option ℚ))
    (timeScale : Option ℚ) (i : ℕ) :
    (∀ p ∈ (runTicks M (createPlanets M s) inputs).planets, p.trail.length ≤ 500) ∧
    (∀ p ∈ (runTicks M (clearTrails s) inputs).planets, p.trail.length ≤ 500) ∧
    (∀ planet : Planet, s.isRunning = true → s.planets[i]? = some planet →
      ∃ planet' : Planet, (updatePhysics M s timeScale).planets[i]? = some planet' ∧
        (planet.trail.length < 500 → planet'.trail = planet.trail ++ [planet'.position]) ∧
        (planet.trail.length = 500 →
          planet'.trail = planet.trail.drop 1 ++ [planet'.position]) ∧
        (planet.trail.length ≤ 500 → planet'.trail.length ≤ 500)) := by
  refine ⟨runTicks_trailsBounded M inputs _ (createPlanets_trailsBounded M s),
    runTicks_trailsBounded M inputs _ (clearTrails_trailsBounded s), ?_⟩
  intro planet hrun hi
  refine ⟨_, updatePhysics_body M s timeScale hrun i planet hi, ?_, ?_, ?_⟩
  · intro h
    rw [advancePlanet_trail]
    exact pushTrail_of_lt _ _ h
  · intro h
    rw [advancePlanet_trail]
    exact pushTrail_of_full _ _ h
  · intro h
    rw [advancePlanet_trail]
    exact pushTrail_length_le _ _ h


/-! ## Theorems: body registry -/

theorem resetBody_newPlanet (M : JsMath) (planets : List Planet) (config : PlanetConfig)
    (index : ℕ) (h : planets[index]? = some (newPlanet M config)) :
    resetBody M planets config index = planets := by
  unfold resetBody
  rw [h]
  have hself : planets.set index (newPlanet M config) = planets := by
    apply List.ext_getElem?
    intro j
    rw [List.getElem?_set]
    split_ifs with hj hlt
    · rw [← hj, h]
    · rw [← hj, List.getElem?_eq_none (not_lt.mp hlt)]
    · rfl
  by_cases hpos : index > 0
  · simp only [hpos, if_true]
    exact hself
  · simp only [hpos, if_false]
    exact hself

theorem foldl_fixed {α β : Type} (f : β → α → β) (b : β) (l : List α)
    (h : ∀ a ∈ l, f b a = b) : l.foldl f b = b := by
  induction l with
  | nil => rfl
  | cons a l ih =>
    rw [List.foldl_cons, h a (List.mem_cons_self a l)]
    exact ih (fun x hx => h x (List.mem_cons_of_mem a hx))

theorem resetSimulation_planets (M : JsMath) (s : SimState) :
    (resetSimulation M s).planets = s.planetConfigs.map (newPlanet M) := by
  have hcfg : ∀ t : SimState, (createPlanets M (clearTrails t)).planetConfigs = t.planetConfigs :=
    fun _ => rfl
  have hpl : ∀ t : SimState,
      (createPlanets M (clearTrails t)).planets = t.planetConfigs.map (newPlanet M) :=
    fun _ => rfl
  unfold resetSimulation
  simp only [hcfg, hpl]
  have hc : (if s.isRunning = true then toggleSimulation s else s).planetConfigs
      = s.planetConfigs := by
    split_ifs <;> rfl
  rw [hc]
  apply foldl_fixed
  intro ic hic
  apply resetBody_newPlanet
  rw [List.getElem?_map, List.mem_enum_iff_getElem?.mp hic]
  rfl

/-- C7: after `resetSimulation`, from any state, the simulation is stopped,
the clock is 0, the configurations are untouched and there is one body per
configuration, in order, at its configured position and velocity, with an
empty trail and a tracker with `orbitCount = 0`, `pendingOrbitCount = 0` and
`angleAccumulated = 0`. -/
theorem reset_restores_configuration (M : JsMath) (s : SimState) :
    (resetSimulation M s).isRunning = false ∧
    (resetSimulation M s).time = 0 ∧
    (resetSimulation M s).planetConfigs = s.planetConfigs ∧
    (resetSimulation M s).planets = s.planetConfigs.map (newPlanet M) ∧
    (resetSimulation M s).planets.length = s.planetConfigs.length ∧
    (resetSimulation M s).planets.map (fun p => p.position)
      = s.planetConfigs.map (fun c => (⟨c.x, c.y, c.z⟩ : Vector3)) ∧
    (resetSimulation M s).planets.map (fun p => p.velocity)
      = s.planetConfigs.map (fun c => (⟨c.vx, c.vy, c.vz⟩ : Vector3)) ∧
    ∀ p ∈ (resetSimulation M s).planets,
      p.trail = [] ∧ p.orbitCount = 0 ∧ p.pendingOrbitCount = 0 ∧ p.angleAccumulated = 0 := by
  have hp := resetSimulation_planets M s
  refine ⟨?_, ?_, ?_, hp, ?_, ?_, ?_, ?_⟩
  · unfold resetSimulation
    cases h : s.isRunning <;> simp [toggleSimulation, clearTrails, createPlanets, h]
  · rfl
  · unfold resetSimulation
    split_ifs <;> rfl
  · rw [hp, List.length_map]
  · rw [hp, List.map_map]
    rfl
  · rw [hp, List.map_map]
    rfl
  · intro p hmem
    rw [hp, List.mem_map] at hmem
    obtain ⟨c, _, rfl⟩ := hmem
    exact ⟨rfl, rfl, rfl, rfl⟩

theorem removePlanet_zero (M : JsMath) (s : SimState) : removePlanet M s 0 = s := by
  unfold removePlanet
  rw [if_pos rfl]

/-- C8: `removePlanet(0)` removes nothing: the configurations, the body list and
the rest of the state are exactly as before. -/
theorem removePlanet_zero_rejected (M : JsMath) (s : SimState) :
    removePlanet M s 0 = s ∧
    (removePlanet M s 0).planetConfigs = s.planetConfigs ∧
    (removePlanet M s 0).planets = s.planets := by
  rw [removePlanet_zero M s]
  exact ⟨rfl, rfl, rfl⟩

theorem head?_take_append_drop {α : Type} (l : List α) (start k : ℕ)
    (h : 1 ≤ start ∨ l = []) : (l.take start ++ l.drop (start + k)).head? = l.head? := by
  cases l with
  | nil => simp
  | cons a l =>
    rcases h with h | h
    · cases start with
      | zero => omega
      | succ n => simp
    · exact absurd h (List.cons_ne_nil a l)

theorem spliceStart_pos (len : ℕ) (start : ℤ) (h0 : start ≠ 0) (h : -(len : ℤ) < start) :
    1 ≤ spliceStart len start ∨ len = 0 := by
  unfold spliceStart
  split_ifs with hneg
  · left
    omega
  · by_cases hl : len = 0
    · right; exact hl
    · left
      have : 1 ≤ start.toNat := by omega
      omega

theorem removePlanet_configs (M : JsMath) (s : SimState) (index : ℤ) (h : index ≠ 0) :
    (removePlanet M s index).planetConfigs = splice s.planetConfigs index 1 := by
  unfold removePlanet
  rw [if_neg h]
  rfl

/-- C9 (counterexample): on two configurations `removePlanet(-2)` removes the
central body's configuration. -/
theorem removePlanet_negative_removes_central :
    (removePlanet ratMath twoBodies (-2)).planetConfigs = [heavyConfig] ∧
    (removePlanet ratMath twoBodies (-2)).planetConfigs.head? ≠ twoBodies.planetConfigs.head? := by
  have h : (removePlanet ratMath twoBodies (-2)).planetConfigs = [heavyConfig] := by
    rw [removePlanet_configs _ _ _ (by decide)]
    rfl
  refine ⟨h, ?_⟩
  rw [h]
  decide

/-- C9 (as amended): for every index above minus the number of
configurations (so for every index that is zero or positive), the first
entry of `planetConfigs` after `removePlanet(index)` is the one before. -/
theorem removePlanet_keeps_central (M : JsMath) (s : SimState) (index : ℤ)
    (h : -(s.planetConfigs.length : ℤ) < index) :
    (removePlanet M s index).planetConfigs.head? = s.planetConfigs.head? := by
  by_cases h0 : index = 0
  · rw [h0, removePlanet_zero M s]
  · rw [removePlanet_configs M s index h0]
    unfold splice
    apply head?_take_append_drop
    rcases spliceStart_pos s.planetConfigs.length index h0 h with h1 | h1
    · exact Or.inl h1
    · exact Or.inr (List.length_eq_zero.mp h1)

/-- C10: for `1 ≤ i < n`, `removePlanet(i)` erases exactly entry `i` of the `n`
configurations: `n - 1` entries remain, those below `i` in place and those
above `i` one position lower; the body list is rebuilt from them. -/
theorem removePlanet_erases_entry (M : JsMath) (s : SimState) (i : ℕ) (h1 : 1 ≤ i)
    (hn : i < s.planetConfigs.length) :
    (removePlanet M s (i : ℤ)).planetConfigs = s.planetConfigs.eraseIdx i ∧
    (removePlanet M s (i : ℤ)).planetConfigs.length = s.planetConfigs.length - 1 ∧
    (∀ j, j < i → (removePlanet M s (i : ℤ)).planetConfigs[j]? = s.planetConfigs[j]?) ∧
    (∀ j, i ≤ j → (removePlanet M s (i : ℤ)).planetConfigs[j]? = s.planetConfigs[j + 1]?) ∧
    (removePlanet M s (i : ℤ)).planets = (s.planetConfigs.eraseIdx i).map (newPlanet M) := by
  have hi0 : (i : ℤ) ≠ 0 := by omega
  have hstart : spliceStart s.planetConfigs.length (i : ℤ) = i := by
    unfold spliceStart
    rw [if_neg (by omega), Int.toNat_ofNat]
    exact Nat.min_eq_left (le_of_lt hn)
  have hc : (removePlanet M s (i : ℤ)).planetConfigs = s.planetConfigs.eraseIdx i := by
    rw [removePlanet_configs M s _ hi0, List.eraseIdx_eq_take_drop_succ]
    unfold splice
    simp only [hstart]
    rw [Nat.min_eq_left (by omega)]
  refine ⟨hc, ?_, ?_, ?_, ?_⟩
  · rw [hc, List.length_eraseIdx, if_pos hn]
  · intro j hj
    rw [hc, List.getElem?_eraseIdx, if_pos hj]
  · intro j hj
    rw [hc, List.getElem?_eraseIdx, if_neg (by omega)]
  · unfold removePlanet
    rw [if_neg hi0]
    have : (createPlanets M { s with planetConfigs := splice s.planetConfigs (i : ℤ) 1 }).planets
        = (splice s.planetConfigs (i : ℤ) 1).map (newPlanet M) := rfl
    rw [this, ← removePlanet_configs M s _ hi0, hc]


/-! ## Concrete instances -/

theorem demo_within_band :
    staysWithinBand ratMath (newPlanet ratMath demoConfig) [nearCall] := by
  refine ⟨?_, trivial⟩
  norm_num [dist0, threshold, atCall, relPos, newPlanet, Vector3.distanceTo,
    Vector3.distanceToSquared, Vector3.subVectors, Vector3.length, ratMath, demoConfig, nearCall,
    sqrtExact_one, sqrtExact_hundred]

theorem pendingPlanet_confirms : confirms ratMath pendingPlanet 1 1 := by
  unfold confirms
  simp only [updateClosest_pending]
  refine ⟨?_, ?_⟩
  · rw [startPending_pending_of_pos]
    · exact Nat.one_pos
    · exact Nat.one_pos
  · norm_num [dist0, threshold, relPos, newPlanet, Vector3.distanceTo, pendingPlanet,
    Vector3.distanceToSquared, Vector3.subVectors, Vector3.length, ratMath, demoConfig,
    sqrtExact_one, sqrtExact_hundred]

/-- C1 (instance): a fresh body, one call near the start, then calls far away. -/
theorem orbitCount_monotone_unit_steps_witness :
    (newPlanet ratMath demoConfig).pendingOrbitCount = 0 ∧
    ((runCalls ratMath (newPlanet ratMath demoConfig) [nearCall]).orbitCount ≤
      (runCalls ratMath (newPlanet ratMath demoConfig) ([nearCall] ++ [farCall])).orbitCount ∧
    (confirms ratMath (atCall (runCalls ratMath (newPlanet ratMath demoConfig) [nearCall]) farCall)
        farCall.planetIndex farCall.currentTime →
      (applyCall ratMath (runCalls ratMath (newPlanet ratMath demoConfig) [nearCall])
        farCall).orbitCount
        = (runCalls ratMath (newPlanet ratMath demoConfig) [nearCall]).orbitCount + 1) ∧
    (¬ confirms ratMath (atCall (runCalls ratMath (newPlanet ratMath demoConfig) [nearCall])
        farCall) farCall.planetIndex farCall.currentTime →
      (applyCall ratMath (runCalls ratMath (newPlanet ratMath demoConfig) [nearCall])
        farCall).orbitCount
        = (runCalls ratMath (newPlanet ratMath demoConfig) [nearCall]).orbitCount)) :=
  ⟨rfl, orbitCount_monotone_unit_steps ratMath (newPlanet ratMath demoConfig) rfl
    [nearCall] [farCall] farCall⟩

/-- C2 (instance): a fresh body of initial radius 10 called at distance 1 from
its start, within twice the threshold 1. -/
theorem no_confirmation_within_band_witness :
    staysWithinBand ratMath (newPlanet ratMath demoConfig) [nearCall] ∧
    ¬ confirms ratMath (atCall (newPlanet ratMath demoConfig) nearCall) nearCall.planetIndex
      nearCall.currentTime ∧
    (runCalls ratMath (newPlanet ratMath demoConfig) [nearCall]).orbitCount = 0 :=
  ⟨demo_within_band,
    ((no_confirmation_within_band ratMath (newPlanet ratMath demoConfig) [nearCall]
      demo_within_band).1 [] nearCall [] rfl).1,
    (no_confirmation_within_band ratMath (newPlanet ratMath demoConfig) [nearCall]
      demo_within_band).2.1⟩

/-- C3 (instance): a pending tracker whose body is 10 away from its start. -/
theorem confirmation_carries_remainder_witness :
    confirms ratMath pendingPlanet 1 1 ∧
    (checkOrbitCompletion ratMath pendingPlanet 1 1).1.angleAccumulated =
      pendingPlanet.angleAccumulated + angleDelta ratMath pendingPlanet - 2 * PI :=
  ⟨pendingPlanet_confirms, confirmation_carries_remainder ratMath pendingPlanet 1 1
    pendingPlanet_confirms⟩

/-- C4 (instance): the second of the two bodies. -/
theorem tick_forces_in_place_witness :
    twoBodies.isRunning = true ∧
    (updatePhysics ratMath twoBodies (some 1)).planets[1]? =
      (twoBodies.planets[1]?).map (fun planet =>
        advancePlanet ratMath (stepSize (some 1)) twoBodies.time 1 planet
          (netForce ratMath ((updatePhysics ratMath twoBodies (some 1)).planets.take 1 ++
            twoBodies.planets.drop 1) 1 planet)) :=
  ⟨rfl, (tick_forces_in_place ratMath twoBodies (some 1) rfl 1).2.1⟩

/-- C5 (instance): the second of the two bodies. -/
theorem velocity_then_position_witness :
    twoBodies.isRunning = true ∧
    twoBodies.planets[1]? = some (newPlanet ratMath heavyConfig) ∧
    (newPlanet ratMath heavyConfig).mass ≠ 0 ∧
    ∃ planet' : Planet,
      (updatePhysics ratMath twoBodies (some 1)).planets[1]? = some planet' ∧
      planet'.position =
        ⟨(newPlanet ratMath heavyConfig).position.x + planet'.velocity.x * stepSize (some 1),
          (newPlanet ratMath heavyConfig).position.y + planet'.velocity.y * stepSize (some 1),
          (newPlanet ratMath heavyConfig).position.z + planet'.velocity.z * stepSize (some 1)⟩ := by
  have hm : (newPlanet ratMath heavyConfig).mass ≠ 0 := by
    norm_num [newPlanet_mass, heavyConfig]
  obtain ⟨planet', h1, _, _, h4⟩ :=
    velocity_then_position ratMath twoBodies (some 1) 1 (newPlanet ratMath heavyConfig) rfl rfl hm
  exact ⟨rfl, rfl, hm, planet', h1, h4⟩

/-- C9 (instance): `removePlanet(-1)` on two configurations. -/
theorem removePlanet_keeps_central_witness :
    -(twoBodies.planetConfigs.length : ℤ) < -1 ∧
    (removePlanet ratMath twoBodies (-1)).planetConfigs.head? = twoBodies.planetConfigs.head? :=
  ⟨by decide, removePlanet_keeps_central ratMath twoBodies (-1) (by decide)⟩

/-- C10 (instance): `removePlanet(1)` on two configurations. -/
theorem removePlanet_erases_entry_witness :
    1 ≤ 1 ∧ 1 < twoBodies.planetConfigs.length ∧
    (removePlanet ratMath twoBodies ((1 : ℕ) : ℤ)).planetConfigs = [centralConfig] :=
  ⟨le_refl 1, by decide,
    (removePlanet_erases_entry ratMath twoBodies 1 (le_refl 1) (by decide)).1⟩


/-! ## Theorems: forces, unit scaling and the clock -/

/-- C11: in the force accumulation, the contribution of another body at
distance 0 is nothing (the force is left as it is, no quotient is formed);
at a distance `d > 0` it adds the vector along `r / d`, the direction from the
body to the other one, scaled by `G * m_i * m_j / d^2`.  A body all of whose
companions are at distance 0 gets the zero force. -/
theorem pair_force_contribution (M : JsMath) (planet otherPlanet : Planet) (i j : ℕ)
    (force : Vector3) (hij : i ≠ j) :
    ((separation planet otherPlanet).length M = 0 →
      accumulateForce M planet i force j otherPlanet = force) ∧
    (otherPlanet.position = planet.position → M.sqrt 0 = 0 →
      accumulateForce M planet i force j otherPlanet = force) ∧
    (0 < (separation planet otherPlanet).length M →
      accumulateForce M planet i force j otherPlanet =
        ⟨force.x + (separation planet otherPlanet).x / (separation planet otherPlanet).length M
            * (G * planet.mass * otherPlanet.mass / (separation planet otherPlanet).length M ^ 2),
          force.y + (separation planet otherPlanet).y / (separation planet otherPlanet).length M
            * (G * planet.mass * otherPlanet.mass / (separation planet otherPlanet).length M ^ 2),
          force.z + (separation planet otherPlanet).z / (separation planet otherPlanet).length M
            * (G * planet.mass * otherPlanet.mass
              / (separation planet otherPlanet).length M ^ 2)⟩) ∧
    (∀ planets : List Planet, (∀ o ∈ planets, (separation planet o).length M = 0) →
      netForce M planets i planet = ⟨0, 0, 0⟩) := by
  refine ⟨fun h0 => ?_, fun hpos hs => ?_, fun hd => ?_, fun planets hall => ?_⟩
  · unfold accumulateForce
    rw [if_neg hij]
    show (if (separation planet otherPlanet).length M > 0 then _ else force) = force
    rw [if_neg (by rw [h0]; exact lt_irrefl 0)]
  · have h0 : (separation planet otherPlanet).length M = 0 := by
      unfold separation Vector3.length Vector3.subVectors
      rw [hpos]
      simp only [sub_self, mul_zero, add_zero]
      exact hs
    unfold accumulateForce
    rw [if_neg hij]
    show (if (separation planet otherPlanet).length M > 0 then _ else force) = force
    rw [if_neg (by rw [h0]; exact lt_irrefl 0)]
  · unfold accumulateForce
    rw [if_neg hij]
    show (if (separation planet otherPlanet).length M > 0 then
      force.add (((separation planet otherPlanet).normalize M).multiplyScalar
        (G * planet.mass * otherPlanet.mass /
          ((separation planet otherPlanet).length M * (separation planet otherPlanet).length M)))
      else force) = _
    rw [if_pos hd]
    have hne : (separation planet otherPlanet).length M ≠ 0 := ne_of_gt hd
    simp only [Vector3.add, Vector3.multiplyScalar, Vector3.normalize, Vector3.divideScalar,
      orElse, if_neg hne, one_div, div_eq_mul_inv, pow_two, one_mul]
  · unfold netForce
    apply foldl_fixed
    intro jo hjo
    have hmem : jo.2 ∈ planets := by
      obtain ⟨hlt, heq⟩ := List.mem_enum (show (jo.1, jo.2) ∈ planets.enum from hjo)
      rw [heq]
      exact List.getElem_mem hlt
    have hnot : ¬ (0 < (separation planet jo.2).length M) := by
      rw [hall jo.2 hmem]
      exact lt_irrefl 0
    unfold accumulateForce
    by_cases h1 : i = jo.1
    · rw [if_pos h1]
    · rw [if_neg h1]
      show (if (separation planet jo.2).length M > 0 then _ else _) = _
      rw [if_neg hnot]

theorem sqrtExact_zero : sqrtExact 0 = 0 := by
  have := sqrtExact_mul_self 0 (le_refl _)
  norm_num at this
  exact this

/-- C11 (instance): two bodies at the same place exert no force on each other. -/
theorem pair_force_contribution_witness :
    (0 : ℕ) ≠ 1 ∧
    accumulateForce ratMath (newPlanet ratMath centralConfig) 0 ⟨0, 0, 0⟩ 1
      (newPlanet ratMath centralConfig) = ⟨0, 0, 0⟩ :=
  ⟨Nat.zero_ne_one, (pair_force_contribution ratMath (newPlanet ratMath centralConfig)
    (newPlanet ratMath centralConfig) 0 1 ⟨0, 0, 0⟩ Nat.zero_ne_one).2.1 rfl sqrtExact_zero⟩

/-- C13: a tick while the simulation is not running returns the state as it
is; a tick while it is running adds exactly the step to `time`. -/
theorem tick_gated_by_running (M : JsMath) (s : SimState) (timeScale : Option ℚ) :
    (s.isRunning = false → updatePhysics M s timeScale = s) ∧
    (s.isRunning = true →
      (updatePhysics M s timeScale).time = s.time + stepSize timeScale ∧
      (updatePhysics M s timeScale).isRunning = true) := by
  refine ⟨fun h => ?_, fun h => ?_⟩
  · unfold updatePhysics
    rw [h]
    rfl
  · unfold updatePhysics
    rw [h]
    exact ⟨rfl, rfl⟩

theorem G_cast_real : ((G : ℚ) : ℝ) = (G_SI : ℝ) * ((DIST_SCALE : ℝ) ^ 3)⁻¹ * (MASS_SCALE : ℝ) := by
  unfold G
  push_cast
  rw [zpow_neg]
  norm_cast

theorem scale_pos : (0 : ℝ) < (G_SI : ℝ) ∧ (0 : ℝ) < (DIST_SCALE : ℝ) ∧ (0 : ℝ) < (MASS_SCALE : ℝ) := by
  refine ⟨?_, ?_, ?_⟩
  · have : (0 : ℚ) < G_SI := by norm_num [G_SI]
    exact_mod_cast this
  · have : (0 : ℚ) < DIST_SCALE := by norm_num [DIST_SCALE]
    exact_mod_cast this
  · have : (0 : ℚ) < MASS_SCALE := by norm_num [MASS_SCALE]
    exact_mod_cast this

/-- C12: over the reals, for a central mass `M ≥ 0` and a radius `r_km > 0`,
`calcOrbitalVelocity` is `sqrt (G_SI * M / r_km) / DIST_SCALE`; its square is
`G * m / r` for the scaled mass `m = M / MASS_SCALE` and the scaled radius
`r = r_km / DIST_SCALE`, so that `v^2 / r = G * m / r^2`. -/
theorem orbital_velocity_consistent (M_central r_km : ℝ) (hM : 0 ≤ M_central) (hr : 0 < r_km) :
    calcOrbitalVelocity Real.sqrt M_central r_km =
      Real.sqrt ((G_SI : ℝ) * M_central / r_km) / (DIST_SCALE : ℝ) ∧
    calcOrbitalVelocity Real.sqrt M_central r_km ^ 2 =
      (G : ℝ) * (M_central / (MASS_SCALE : ℝ)) / (r_km / (DIST_SCALE : ℝ)) ∧
    calcOrbitalVelocity Real.sqrt M_central r_km ^ 2 / (r_km / (DIST_SCALE : ℝ)) =
      (G : ℝ) * (M_central / (MASS_SCALE : ℝ)) / (r_km / (DIST_SCALE : ℝ)) ^ 2 := by
  obtain ⟨hG, hD, hS⟩ := scale_pos
  have hnn : 0 ≤ (G_SI : ℝ) * M_central / r_km :=
    div_nonneg (mul_nonneg (le_of_lt hG) hM) (le_of_lt hr)
  have hsq : calcOrbitalVelocity Real.sqrt M_central r_km ^ 2 =
      (G : ℝ) * (M_central / (MASS_SCALE : ℝ)) / (r_km / (DIST_SCALE : ℝ)) := by
    unfold calcOrbitalVelocity
    simp only []
    rw [div_pow, Real.sq_sqrt hnn, G_cast_real]
    field_simp
    ring
  refine ⟨rfl, hsq, ?_⟩
  rw [hsq]
  have hr' : r_km / (DIST_SCALE : ℝ) ≠ 0 := ne_of_gt (div_pos hr hD)
  field_simp
  ring

/-- C12 (instance): unit central mass at unit radius. -/
theorem orbital_velocity_consistent_witness :
    (0 : ℝ) ≤ 1 ∧ (0 : ℝ) < 1 ∧
    calcOrbitalVelocity Real.sqrt (1 : ℝ) 1 ^ 2 =
      (G : ℝ) * (1 / (MASS_SCALE : ℝ)) / (1 / (DIST_SCALE : ℝ)) :=
  ⟨zero_le_one, zero_lt_one, (orbital_velocity_consistent 1 1 zero_le_one zero_lt_one).2.1⟩


/-! ## Theorems: pending windows of the orbit detector -/

theorem startPending_of_enters (M : JsMath) (planet : Planet) (i : ℕ) (t : ℚ) (f : ℤ)
    (h : entersPending M planet) :
    startPending (accumulateAngle M planet) i t f =
      ({ accumulateAngle M planet with
          pendingOrbitCount := planet.orbitCount + 1
          lastDetectionDistance := ⊤
          lastDetectionFrame := f },
        [{ planetIndex := i, orbitCount := planet.orbitCount + 1, simTime := t,
           isPending := true }]) := by
  have hc : (accumulateAngle M planet).angleAccumulated ≥ 2 * PI ∧
      (accumulateAngle M planet).pendingOrbitCount = 0 := ⟨h.2, h.1⟩
  unfold startPending
  rw [if_pos hc]
  simp [updateOrbitDisplay, accumulateAngle]

theorem startPending_of_not_enters (M : JsMath) (planet : Planet) (i : ℕ) (t : ℚ) (f : ℤ)
    (h : ¬ entersPending M planet) :
    startPending (accumulateAngle M planet) i t f = (accumulateAngle M planet, []) := by
  have hc : ¬ ((accumulateAngle M planet).angleAccumulated ≥ 2 * PI ∧
      (accumulateAngle M planet).pendingOrbitCount = 0) := fun hc => h ⟨hc.2, hc.1⟩
  unfold startPending
  rw [if_neg hc]

theorem check_idle (M : JsMath) (planet : Planet) (i : ℕ) (t : ℚ)
    (h0 : planet.pendingOrbitCount = 0)
    (hlt : planet.angleAccumulated + angleDelta M planet < 2 * PI) :
    checkOrbitCompletion M planet i t = (accumulateAngle M planet, []) := by
  have hne : ¬ entersPending M planet := fun h => absurd h.2 (not_le.mpr hlt)
  have hp : (accumulateAngle M planet).pendingOrbitCount = 0 := h0
  unfold checkOrbitCompletion
  simp only [startPending_of_not_enters M planet i t _ hne]
  have h3 : updateClosest (accumulateAngle M planet) i (dist0 M planet) (threshold planet)
      ⌊t * 60⌋ = (accumulateAngle M planet, []) := by
    unfold updateClosest
    rw [if_neg (fun hc => by rw [hp] at hc; exact lt_irrefl 0 hc.1)]
  rw [h3]
  have h4 : confirmOrbit (accumulateAngle M planet) i (dist0 M planet) (threshold planet)
      = (accumulateAngle M planet, []) := by
    unfold confirmOrbit
    rw [if_neg (fun hc => by rw [hp] at hc; exact lt_irrefl 0 hc.1)]
  rw [h4]
  rfl

theorem updateClosest_frame_of_top (planet : Planet) (i : ℕ) (d th : ℚ) (f : ℤ)
    (h : planet.lastDetectionFrame = f) :
    (updateClosest planet i d th f).1.lastDetectionFrame = f := by
  unfold updateClosest
  split_ifs <;> first | rfl | exact h

theorem confirmOrbit_frame (planet : Planet) (i : ℕ) (d th : ℚ) :
    (confirmOrbit planet i d th).1.lastDetectionFrame = planet.lastDetectionFrame := by
  unfold confirmOrbit
  split_ifs <;> rfl

theorem confirmOrbit_distance (planet : Planet) (i : ℕ) (d th : ℚ) :
    (confirmOrbit planet i d th).1.lastDetectionDistance = planet.lastDetectionDistance := by
  unfold confirmOrbit
  split_ifs <;> rfl

/-- C17: a call enters the pending state exactly when nothing is pending at
its start and the angle with this call's delta added is at least `2 * PI`;
section 2 then sets `pendingOrbitCount = orbitCount + 1`, the distance to
infinity and `lastDetectionFrame = floor(60 * currentTime)` and emits one
pending display.  A call made while idle with the angle still below `2 * PI`
changes `angleAccumulated` and `prevRelPos` only and emits nothing. -/
theorem pending_entry (M : JsMath) (planet : Planet) (planetIndex : ℕ) (currentTime : ℚ) :
    ((startPending (accumulateAngle M planet) planetIndex currentTime ⌊currentTime * 60⌋).2 ≠ [] ↔
      planet.pendingOrbitCount = 0 ∧
        planet.angleAccumulated + angleDelta M planet ≥ 2 * PI) ∧
    (entersPending M planet →
      startPending (accumulateAngle M planet) planetIndex currentTime ⌊currentTime * 60⌋ =
        ({ accumulateAngle M planet with
            pendingOrbitCount := planet.orbitCount + 1
            lastDetectionDistance := ⊤
            lastDetectionFrame := ⌊60 * currentTime⌋ },
          [{ planetIndex := planetIndex, orbitCount := planet.orbitCount + 1,
             simTime := currentTime, isPending := true }]) ∧
      (checkOrbitCompletion M planet planetIndex currentTime).1.lastDetectionFrame
        = ⌊60 * currentTime⌋ ∧
      (¬ confirms M planet planetIndex currentTime →
        (checkOrbitCompletion M planet planetIndex currentTime).1.pendingOrbitCount
          = planet.orbitCount + 1)) ∧
    (¬ entersPending M planet →
      startPending (accumulateAngle M planet) planetIndex currentTime ⌊currentTime * 60⌋ =
        (accumulateAngle M planet, [])) ∧
    (planet.pendingOrbitCount = 0 → planet.angleAccumulated + angleDelta M planet < 2 * PI →
      checkOrbitCompletion M planet planetIndex currentTime =
        ({ planet with
            angleAccumulated := planet.angleAccumulated + angleDelta M planet
            prevRelPos := relPos planet }, [])) := by
  have hfl : ⌊currentTime * 60⌋ = ⌊60 * currentTime⌋ := by rw [mul_comm]
  refine ⟨⟨fun hne => ?_, fun h => ?_⟩, fun h => ⟨?_, ?_, fun hn => ?_⟩,
    fun h => startPending_of_not_enters M planet planetIndex currentTime _ h,
    fun h0 hlt => check_idle M planet planetIndex currentTime h0 hlt⟩
  · by_contra hc
    exact hne (by rw [startPending_of_not_enters M planet planetIndex currentTime _ hc])
  · rw [startPending_of_enters M planet planetIndex currentTime _ h]
    exact List.cons_ne_nil _ _
  · rw [startPending_of_enters M planet planetIndex currentTime _ h, hfl]
  · unfold checkOrbitCompletion
    simp only [confirmOrbit_frame]
    rw [← hfl]
    apply updateClosest_frame_of_top
    rw [startPending_of_enters M planet planetIndex currentTime _ h]
  · have hpd := check_pending M planet planetIndex currentTime
    rw [if_neg hn, startPending_of_enters M planet planetIndex currentTime _ h] at hpd
    exact hpd


theorem updateClosest_distance_le (planet : Planet) (i : ℕ) (d th : ℚ) (f : ℤ) :
    (updateClosest planet i d th f).1.lastDetectionDistance ≤ planet.lastDetectionDistance := by
  unfold updateClosest
  split_ifs with h1 h2
  · exact le_of_lt h2
  · exact le_refl _
  · exact le_refl _

theorem check_while_pending (M : JsMath) (planet : Planet) (i : ℕ) (t : ℚ)
    (h : 0 < planet.pendingOrbitCount) :
    startPending (accumulateAngle M planet) i t ⌊t * 60⌋ = (accumulateAngle M planet, []) ∧
    ((checkOrbitCompletion M planet i t).1.pendingOrbitCount = planet.pendingOrbitCount ∨
      (checkOrbitCompletion M planet i t).1.pendingOrbitCount = 0) ∧
    (checkOrbitCompletion M planet i t).1.lastDetectionDistance
      ≤ planet.lastDetectionDistance := by
  have hne : ¬ entersPending M planet := fun he => by
    have := he.1
    omega
  have hsp := startPending_of_not_enters M planet i t ⌊t * 60⌋ hne
  refine ⟨hsp, ?_, ?_⟩
  · have hpd := check_pending M planet i t
    rw [hsp] at hpd
    by_cases hc : confirms M planet i t
    · right; rw [hpd, if_pos hc]
    · left; rw [hpd, if_neg hc]; rfl
  · unfold checkOrbitCompletion
    simp only [confirmOrbit_distance, hsp]
    exact updateClosest_distance_le _ _ _ _ _

/-- C19: in every state reached from a tracker with nothing pending,
`pendingOrbitCount` is 0 or `orbitCount + 1`.  A call made while a revolution
is pending does not take the branch of section 2: it leaves
`pendingOrbitCount` as it is or sets it to 0, and the recorded distance does
not grow, so a finite one is never put back to infinity. -/
theorem single_pending_window (M : JsMath) (planet : Planet)
    (hp : planet.pendingOrbitCount = 0) (calls : List OrbitCall) (c : OrbitCall) :
    ((runCalls M planet calls).pendingOrbitCount = 0 ∨
      (runCalls M planet calls).pendingOrbitCount = (runCalls M planet calls).orbitCount + 1) ∧
    (0 < (runCalls M planet calls).pendingOrbitCount →
      startPending (accumulateAngle M (atCall (runCalls M planet calls) c)) c.planetIndex
          c.currentTime ⌊c.currentTime * 60⌋
        = (accumulateAngle M (atCall (runCalls M planet calls) c), []) ∧
      ((applyCall M (runCalls M planet calls) c).pendingOrbitCount
          = (runCalls M planet calls).pendingOrbitCount ∨
        (applyCall M (runCalls M planet calls) c).pendingOrbitCount = 0) ∧
      (applyCall M (runCalls M planet calls) c).lastDetectionDistance
        ≤ (runCalls M planet calls).lastDetectionDistance ∧
      ((runCalls M planet calls).lastDetectionDistance ≠ ⊤ →
        (applyCall M (runCalls M planet calls) c).lastDetectionDistance ≠ ⊤)) := by
  refine ⟨runCalls_countsOk M calls planet (Or.inl hp), fun hpos => ?_⟩
  have h := check_while_pending M (atCall (runCalls M planet calls) c) c.planetIndex
    c.currentTime hpos
  refine ⟨h.1, h.2.1, h.2.2, fun hne htop => ?_⟩
  have hle : (applyCall M (runCalls M planet calls) c).lastDetectionDistance
      ≤ (runCalls M planet calls).lastDetectionDistance := h.2.2
  rw [htop, top_le_iff] at hle
  exact hne hle

/-- C19 (instance): a fresh body and two calls. -/
theorem single_pending_window_witness :
    (newPlanet ratMath demoConfig).pendingOrbitCount = 0 ∧
    ((runCalls ratMath (newPlanet ratMath demoConfig) [nearCall, farCall]).pendingOrbitCount = 0 ∨
      (runCalls ratMath (newPlanet ratMath demoConfig) [nearCall, farCall]).pendingOrbitCount
        = (runCalls ratMath (newPlanet ratMath demoConfig) [nearCall, farCall]).orbitCount + 1) :=
  ⟨rfl, (single_pending_window ratMath (newPlanet ratMath demoConfig) rfl [nearCall, farCall]
    nearCall).1⟩

theorem startPending_sameAnchor (planet : Planet) (i : ℕ) (t : ℚ) (f : ℤ) :
    sameAnchor (startPending planet i t f).1 planet := by
  unfold startPending sameAnchor; split_ifs <;> simp

theorem updateClosest_sameAnchor (planet : Planet) (i : ℕ) (d th : ℚ) (f : ℤ) :
    sameAnchor (updateClosest planet i d th f).1 planet := by
  unfold updateClosest sameAnchor; split_ifs <;> simp

theorem confirmOrbit_sameAnchor (planet : Planet) (i : ℕ) (d th : ℚ) :
    sameAnchor (confirmOrbit planet i d th).1 planet := by
  unfold confirmOrbit sameAnchor; split_ifs <;> simp

theorem sameAnchor_trans {a b c : Planet} (h1 : sameAnchor a b) (h2 : sameAnchor b c) :
    sameAnchor a c :=
  ⟨h1.1.trans h2.1, h1.2.1.trans h2.2.1, h1.2.2.1.trans h2.2.2.1, h1.2.2.2.trans h2.2.2.2⟩

theorem check_sameAnchor (M : JsMath) (planet : Planet) (i : ℕ) (t : ℚ) :
    sameAnchor (checkOrbitCompletion M planet i t).1 planet := by
  unfold checkOrbitCompletion
  refine sameAnchor_trans (confirmOrbit_sameAnchor _ _ _ _) ?_
  refine sameAnchor_trans (updateClosest_sameAnchor _ _ _ _ _) ?_
  refine sameAnchor_trans (startPending_sameAnchor _ _ _ _) ?_
  exact ⟨rfl, rfl, rfl, rfl⟩

theorem applyCall_sameAnchor (M : JsMath) (planet : Planet) (c : OrbitCall) :
    sameAnchor (applyCall M planet c) planet :=
  sameAnchor_trans (check_sameAnchor M (atCall planet c) c.planetIndex c.currentTime)
    ⟨rfl, rfl, rfl, rfl⟩

theorem runCalls_sameAnchor (M : JsMath) (calls : List OrbitCall) :
    ∀ planet : Planet, sameAnchor (runCalls M planet calls) planet := by
  induction calls with
  | nil => intro planet; exact ⟨rfl, rfl, rfl, rfl⟩
  | cons c cs ih =>
    intro planet
    exact sameAnchor_trans (ih (applyCall M planet c)) (applyCall_sameAnchor M planet c)

theorem threshold_of_sameAnchor {a b : Planet} (h : sameAnchor a b) :
    threshold a = threshold b := by
  unfold threshold
  rw [h.2.1]

theorem check_closestOk (M : JsMath) (planet : Planet) (i : ℕ) (t : ℚ) (h : ClosestOk planet) :
    ClosestOk (checkOrbitCompletion M planet i t).1 ∧
    (confirms M planet i t →
      (checkOrbitCompletion M planet i t).1.lastDetectionDistance = ⊤ ∨
        (checkOrbitCompletion M planet i t).1.lastDetectionDistance
          < ((threshold planet : ℚ) : WithTop ℚ)) := by
  -- the state after section 2
  have h2 : 0 < (startPending (accumulateAngle M planet) i t ⌊t * 60⌋).1.pendingOrbitCount →
      (startPending (accumulateAngle M planet) i t ⌊t * 60⌋).1.lastDetectionDistance = ⊤ ∨
      (startPending (accumulateAngle M planet) i t ⌊t * 60⌋).1.lastDetectionDistance
        < ((threshold planet : ℚ) : WithTop ℚ) := by
    by_cases he : entersPending M planet
    · rw [startPending_of_enters M planet i t _ he]
      exact fun _ => Or.inl rfl
    · rw [startPending_of_not_enters M planet i t _ he]
      exact h
  -- the state after section 3
  have h3 : 0 < (startPending (accumulateAngle M planet) i t ⌊t * 60⌋).1.pendingOrbitCount →
      (updateClosest (startPending (accumulateAngle M planet) i t ⌊t * 60⌋).1 i (dist0 M planet)
        (threshold planet) ⌊t * 60⌋).1.lastDetectionDistance = ⊤ ∨
      (updateClosest (startPending (accumulateAngle M planet) i t ⌊t * 60⌋).1 i (dist0 M planet)
        (threshold planet) ⌊t * 60⌋).1.lastDetectionDistance
        < ((threshold planet : ℚ) : WithTop ℚ) := by
    intro hpos
    unfold updateClosest
    split_ifs with hc hlt
    · right
      exact WithTop.coe_lt_coe.mpr hc.2
    · exact h2 hpos
    · exact h2 hpos
  have hd : (checkOrbitCompletion M planet i t).1.lastDetectionDistance =
      (updateClosest (startPending (accumulateAngle M planet) i t ⌊t * 60⌋).1 i (dist0 M planet)
        (threshold planet) ⌊t * 60⌋).1.lastDetectionDistance := by
    unfold checkOrbitCompletion
    exact confirmOrbit_distance _ _ _ _
  have hth : threshold (checkOrbitCompletion M planet i t).1 = threshold planet :=
    threshold_of_sameAnchor (check_sameAnchor M planet i t)
  have hpd := check_pending M planet i t
  refine ⟨fun hpos => ?_, fun hc => ?_⟩
  · rw [hth, hd]
    by_cases hc : confirms M planet i t
    · rw [hpd, if_pos hc] at hpos
      exact absurd hpos (lt_irrefl 0)
    · rw [hpd, if_neg hc] at hpos
      exact h3 hpos
  · rw [hd]
    exact h3 (confirms_pending_pos M planet i t hc)

theorem runCalls_closestOk (M : JsMath) (calls : List OrbitCall) :
    ∀ planet : Planet, ClosestOk planet → ClosestOk (runCalls M planet calls) := by
  induction calls with
  | nil => intro planet h; exact h
  | cons c cs ih =>
    intro planet h
    exact ih _ (check_closestOk M (atCall planet c) c.planetIndex c.currentTime h).1

/-- C16 (as amended): from a tracker with nothing pending, whenever a call
confirms a revolution the recorded `lastDetectionDistance` is afterwards
either infinite (no call of the window came within the threshold) or below
the threshold. -/
theorem confirmation_distance (M : JsMath) (planet : Planet)
    (hp : planet.pendingOrbitCount = 0) (calls : List OrbitCall) (c : OrbitCall)
    (hc : confirms M (atCall (runCalls M planet calls) c) c.planetIndex c.currentTime) :
    (applyCall M (runCalls M planet calls) c).lastDetectionDistance = ⊤ ∨
      (applyCall M (runCalls M planet calls) c).lastDetectionDistance
        < ((threshold planet : ℚ) : WithTop ℚ) := by
  have h0 : ClosestOk planet := fun hpos => by rw [hp] at hpos; exact absurd hpos (lt_irrefl 0)
  have hrun : ClosestOk (atCall (runCalls M planet calls) c) := runCalls_closestOk M calls planet h0
  have hth : threshold (atCall (runCalls M planet calls) c) = threshold planet :=
    threshold_of_sameAnchor (runCalls_sameAnchor M calls planet)
  have := (check_closestOk M _ c.planetIndex c.currentTime hrun).2 hc
  rw [hth] at this
  exact this

theorem sqrtExact_240 : sqrtExact 57600 = 240 := by
  have := sqrtExact_mul_self 240 (by norm_num)
  norm_num at this
  exact this

theorem sqrtExact_576 : sqrtExact 331776 = 576 := by
  have := sqrtExact_mul_self 576 (by norm_num)
  norm_num at this
  exact this

theorem sqrtExact_14 : sqrtExact 196 = 14 := by
  have := sqrtExact_mul_self 14 (by norm_num)
  norm_num at this
  exact this

theorem PI_pos : 0 < PI := by norm_num [PI]

theorem turned_fresh : newPlanet ratMath demoConfig = turned 0 ⟨10, 0, 0⟩ := by
  simp [turned, newPlanet, Vector3.subVectors, demoConfig]

theorem turned_angularMomentum (a : ℚ) (p : Vector3) :
    (turned a p).angularMomentum = ⟨0, 0, 1⟩ := by
  norm_num [turned, newPlanet, Vector3.crossVectors, Vector3.normalize, Vector3.divideScalar,
    Vector3.multiplyScalar, Vector3.length, Vector3.subVectors, orElse, ratMath, demoConfig,
    sqrtExact_hundred]

theorem turned_relPos (a : ℚ) (p : Vector3) (c : OrbitCall) :
    relPos (atCall (turned a p) c) = c.position := by
  simp [relPos, atCall, turned, newPlanet, Vector3.subVectors]

theorem turned_delta (a : ℚ) (p : Vector3) (c : OrbitCall) :
    angleDelta ratMath (atCall (turned a p) c) =
      if (Vector3.crossVectors p c.position).dot ⟨0, 0, 1⟩ < 0 then
        -axisAtan2 (sqrtExact ((Vector3.crossVectors p c.position).x
            * (Vector3.crossVectors p c.position).x
          + (Vector3.crossVectors p c.position).y * (Vector3.crossVectors p c.position).y
          + (Vector3.crossVectors p c.position).z * (Vector3.crossVectors p c.position).z))
          (p.dot c.position)
      else
        axisAtan2 (sqrtExact ((Vector3.crossVectors p c.position).x
            * (Vector3.crossVectors p c.position).x
          + (Vector3.crossVectors p c.position).y * (Vector3.crossVectors p c.position).y
          + (Vector3.crossVectors p c.position).z * (Vector3.crossVectors p c.position).z))
          (p.dot c.position) := by
  unfold angleDelta
  simp only [turned_relPos]
  rw [show (atCall (turned a p) c).angularMomentum = ⟨0, 0, 1⟩ from turned_angularMomentum a p]
  rfl

theorem turned_step (a : ℚ) (p : Vector3) (c : OrbitCall) (δ : ℚ)
    (hδ : angleDelta ratMath (atCall (turned a p) c) = δ) (hlt : a + δ < 2 * PI) :
    applyCall ratMath (turned a p) c = turned (a + δ) c.position := by
  unfold applyCall
  rw [check_idle ratMath (atCall (turned a p) c) c.planetIndex c.currentTime rfl
    (by rw [hδ]; exact hlt)]
  show accumulateAngle ratMath (atCall (turned a p) c) = _
  unfold accumulateAngle
  rw [hδ, turned_relPos]
  rfl

theorem turned_delta1 (a : ℚ) :
    angleDelta ratMath (atCall (turned a ⟨10, 0, 0⟩) quarter1) = PI / 2 := by
  rw [turned_delta]
  norm_num [quarter1, Vector3.crossVectors, Vector3.dot, axisAtan2, sqrtExact_240]

theorem turned_delta2 (a : ℚ) :
    angleDelta ratMath (atCall (turned a ⟨0, 24, 0⟩) quarter2) = PI / 2 := by
  rw [turned_delta]
  norm_num [quarter2, Vector3.crossVectors, Vector3.dot, axisAtan2, sqrtExact_576]

theorem turned_delta3 (a : ℚ) :
    angleDelta ratMath (atCall (turned a ⟨-24, 0, 0⟩) quarter3) = PI / 2 := by
  rw [turned_delta]
  norm_num [quarter3, Vector3.crossVectors, Vector3.dot, axisAtan2, sqrtExact_576]

theorem turned_delta4 (a : ℚ) :
    angleDelta ratMath (atCall (turned a ⟨0, -24, 0⟩) quarter4) = PI / 2 := by
  rw [turned_delta]
  norm_num [quarter4, Vector3.crossVectors, Vector3.dot, axisAtan2, sqrtExact_576]

theorem quarter_step1 :
    applyCall ratMath (newPlanet ratMath demoConfig) quarter1 = turned (PI / 2) ⟨0, 24, 0⟩ := by
  rw [turned_fresh, turned_step 0 _ quarter1 _ (turned_delta1 0) (by linarith [PI_pos]),
    zero_add]
  rfl

theorem quarter_step2 :
    applyCall ratMath (turned (PI / 2) ⟨0, 24, 0⟩) quarter2 = turned PI ⟨-24, 0, 0⟩ := by
  rw [turned_step _ _ quarter2 _ (turned_delta2 _) (by linarith [PI_pos]), add_halves]
  rfl

theorem quarter_step3 :
    applyCall ratMath (turned PI ⟨-24, 0, 0⟩) quarter3 = turned (PI + PI / 2) ⟨0, -24, 0⟩ := by
  rw [turned_step _ _ quarter3 _ (turned_delta3 _) (by linarith [PI_pos])]
  rfl

theorem runCalls_nil (M : JsMath) (planet : Planet) : runCalls M planet [] = planet := rfl

theorem runCalls_cons (M : JsMath) (planet : Planet) (c : OrbitCall) (cs : List OrbitCall) :
    runCalls M planet (c :: cs) = runCalls M (applyCall M planet c) cs := rfl

theorem threeQuarters_eq : threeQuarters = turned (PI + PI / 2) ⟨0, -24, 0⟩ := by
  rw [threeQuarters, runCalls_cons, runCalls_cons, runCalls_cons, runCalls_nil, quarter_step1,
    quarter_step2, quarter_step3]

theorem quarter4_enters : entersPending ratMath (atCall threeQuarters quarter4) := by
  rw [threeQuarters_eq]
  refine ⟨rfl, ?_⟩
  rw [turned_delta4]
  show PI + PI / 2 + PI / 2 ≥ 2 * PI
  linarith [PI_pos]

theorem quarter4_dist0 : dist0 ratMath (atCall threeQuarters quarter4) = 14 := by
  rw [threeQuarters_eq]
  unfold dist0
  rw [turned_relPos]
  norm_num [quarter4, Vector3.distanceTo, Vector3.distanceToSquared, atCall, turned, newPlanet,
    Vector3.subVectors, demoConfig, ratMath, sqrtExact_14]

theorem quarter4_threshold : threshold (atCall threeQuarters quarter4) = 1 := by
  rw [threeQuarters_eq]
  norm_num [threshold, atCall, turned, newPlanet, Vector3.length, Vector3.subVectors,
    demoConfig, ratMath, sqrtExact_hundred]

theorem updateClosest_of_not_lt (planet : Planet) (i : ℕ) (d th : ℚ) (f : ℤ) (h : ¬ d < th) :
    updateClosest planet i d th f = (planet, []) := by
  unfold updateClosest
  rw [if_neg (fun hc => h hc.2)]

theorem applyCall_eq (M : JsMath) (planet : Planet) (c : OrbitCall) :
    applyCall M planet c
      = (checkOrbitCompletion M (atCall planet c) c.planetIndex c.currentTime).1 :=
  rfl

theorem confirms_of_enters (M : JsMath) (planet : Planet) (i : ℕ) (t : ℚ)
    (he : entersPending M planet) (hd : dist0 M planet > threshold planet * 2) :
    confirms M planet i t := by
  unfold confirms
  simp only [updateClosest_pending]
  rw [startPending_of_enters M planet i t _ he]
  exact ⟨Nat.succ_pos _, hd⟩

theorem check_of_enters_far (M : JsMath) (planet : Planet) (i : ℕ) (t : ℚ)
    (he : entersPending M planet) (hn : ¬ dist0 M planet < threshold planet)
    (hd : dist0 M planet > threshold planet * 2) :
    (checkOrbitCompletion M planet i t).1.orbitCount = planet.orbitCount + 1 ∧
    (checkOrbitCompletion M planet i t).1.lastDetectionDistance = ⊤ := by
  refine ⟨?_, ?_⟩
  · rw [check_orbitCount, if_pos (confirms_of_enters M planet i t he hd),
      startPending_of_enters M planet i t _ he]
  · unfold checkOrbitCompletion
    rw [confirmOrbit_distance, updateClosest_of_not_lt _ _ _ _ _ hn,
      startPending_of_enters M planet i t _ he]

theorem quarter4_far :
    dist0 ratMath (atCall threeQuarters quarter4) > threshold (atCall threeQuarters quarter4) * 2 := by
  rw [quarter4_dist0, quarter4_threshold]
  norm_num

theorem quarter4_not_near :
    ¬ dist0 ratMath (atCall threeQuarters quarter4) < threshold (atCall threeQuarters quarter4) := by
  rw [quarter4_dist0, quarter4_threshold]
  norm_num

theorem quarter4_confirms :
    confirms ratMath (atCall threeQuarters quarter4) quarter4.planetIndex quarter4.currentTime :=
  confirms_of_enters ratMath _ _ _ quarter4_enters quarter4_far

theorem threeQuarters_orbitCount : (atCall threeQuarters quarter4).orbitCount = 0 := by
  rw [threeQuarters_eq]
  rfl

/-- C16 (counterexample): a fresh tracker is called after each of four quarter
turns on a circle of radius 24.  The fourth call enters the pending state at
distance 14 from the start, with threshold 1, and confirms in the same call:
the revolution is counted and `lastDetectionDistance` is still infinite. -/
theorem confirmation_without_proximity :
    threeQuarters.pendingOrbitCount = 0 ∧
    entersPending ratMath (atCall threeQuarters quarter4) ∧
    dist0 ratMath (atCall threeQuarters quarter4) = 14 ∧
    threshold (atCall threeQuarters quarter4) = 1 ∧
    confirms ratMath (atCall threeQuarters quarter4) quarter4.planetIndex quarter4.currentTime ∧
    (applyCall ratMath threeQuarters quarter4).orbitCount = 1 ∧
    (applyCall ratMath threeQuarters quarter4).lastDetectionDistance = ⊤ := by
  have hpend : threeQuarters.pendingOrbitCount = 0 := by
    rw [threeQuarters_eq]
    rfl
  have hfar := check_of_enters_far ratMath (atCall threeQuarters quarter4) quarter4.planetIndex
    quarter4.currentTime quarter4_enters quarter4_not_near quarter4_far
  rw [threeQuarters_orbitCount, Nat.zero_add] at hfar
  refine ⟨hpend, quarter4_enters, quarter4_dist0, quarter4_threshold, quarter4_confirms, ?_, ?_⟩
  · rw [applyCall_eq]
    exact hfar.1
  · rw [applyCall_eq]
    exact hfar.2

/-- C16 (instance): the fourth quarter turn confirms, and the recorded distance
is infinite. -/
theorem confirmation_distance_witness :
    (newPlanet ratMath demoConfig).pendingOrbitCount = 0 ∧
    confirms ratMath (atCall (runCalls ratMath (newPlanet ratMath demoConfig)
      [quarter1, quarter2, quarter3]) quarter4) quarter4.planetIndex quarter4.currentTime ∧
    ((applyCall ratMath (runCalls ratMath (newPlanet ratMath demoConfig)
        [quarter1, quarter2, quarter3]) quarter4).lastDetectionDistance = ⊤ ∨
      (applyCall ratMath (runCalls ratMath (newPlanet ratMath demoConfig)
        [quarter1, quarter2, quarter3]) quarter4).lastDetectionDistance
        < ((threshold (newPlanet ratMath demoConfig) : ℚ) : WithTop ℚ)) :=
  ⟨rfl, quarter4_confirms,
    confirmation_distance ratMath (newPlanet ratMath demoConfig) rfl
      [quarter1, quarter2, quarter3] quarter4 quarter4_confirms⟩


theorem isClosest_nil (th : ℚ) (f0 : ℤ) : IsClosestApproach th f0 [] ⊤ f0 :=
  Or.inl ⟨rfl, rfl, fun _ h => absurd h (List.not_mem_nil _)⟩

theorem isClosest_update (th : ℚ) (f0 : ℤ) (l : List (ℚ × ℤ)) (dist : WithTop ℚ) (frame : ℤ)
    (s : ℚ × ℤ) (h : IsClosestApproach th f0 l dist frame) (h1 : s.1 < th)
    (h2 : (s.1 : WithTop ℚ) < dist) :
    IsClosestApproach th f0 (l ++ [s]) (s.1 : WithTop ℚ) s.2 := by
  refine Or.inr ⟨l, s, [], rfl, rfl, rfl, h1, ?_, fun _ ht => absurd ht (List.not_mem_nil _)⟩
  intro t ht hlt
  rcases h with ⟨_, _, hnone⟩ | ⟨pre, m, post, hl, hd, _, _, hpre, hpost⟩
  · exact absurd hlt (hnone t ht)
  · rw [hd, WithTop.coe_lt_coe] at h2
    rw [hl, List.mem_append, List.mem_cons] at ht
    rcases ht with ht | ht | ht
    · exact lt_trans h2 (hpre t ht hlt)
    · rw [ht]; exact h2
    · exact lt_of_lt_of_le h2 (hpost t ht hlt)

theorem isClosest_keep (th : ℚ) (f0 : ℤ) (l : List (ℚ × ℤ)) (dist : WithTop ℚ) (frame : ℤ)
    (s : ℚ × ℤ) (h : IsClosestApproach th f0 l dist frame)
    (hn : ¬ (s.1 < th ∧ (s.1 : WithTop ℚ) < dist)) :
    IsClosestApproach th f0 (l ++ [s]) dist frame := by
  rcases h with ⟨hd, hf, hnone⟩ | ⟨pre, m, post, hl, hd, hf, hm, hpre, hpost⟩
  · refine Or.inl ⟨hd, hf, ?_⟩
    intro t ht
    rw [List.mem_append, List.mem_singleton] at ht
    rcases ht with ht | ht
    · exact hnone t ht
    · rw [ht]
      intro hlt
      exact hn ⟨hlt, by rw [hd]; exact WithTop.coe_lt_top _⟩
  · refine Or.inr ⟨pre, m, post ++ [s], ?_, hd, hf, hm, hpre, ?_⟩
    · rw [hl, List.append_assoc, List.cons_append]
    · intro t ht hlt
      rw [List.mem_append, List.mem_singleton] at ht
      rcases ht with ht | ht
      · exact hpost t ht hlt
      · rw [ht] at hlt ⊢
        by_contra hc
        exact hn ⟨hlt, by rw [hd]; exact WithTop.coe_lt_coe.mpr (not_le.mp hc)⟩

/-- Sections 3 and 4 extend the closest approach by the sample of the call. -/
theorem closest_after_sections (planet : Planet) (i : ℕ) (d th : ℚ) (f f0 : ℤ)
    (l : List (ℚ × ℤ)) (hpos : 0 < planet.pendingOrbitCount)
    (h : IsClosestApproach th f0 l planet.lastDetectionDistance planet.lastDetectionFrame) :
    IsClosestApproach th f0 (l ++ [(d, f)])
      (confirmOrbit (updateClosest planet i d th f).1 i d th).1.lastDetectionDistance
      (confirmOrbit (updateClosest planet i d th f).1 i d th).1.lastDetectionFrame := by
  rw [confirmOrbit_distance, confirmOrbit_frame]
  unfold updateClosest
  split_ifs with h1 h2
  · exact isClosest_update th f0 l _ _ (d, f) h h1.2 h2
  · exact isClosest_keep th f0 l _ _ (d, f) h (fun hc => h2 hc.2)
  · exact isClosest_keep th f0 l _ _ (d, f) h (fun hc => h1 ⟨hpos, hc.1⟩)

theorem check_closest_entering (M : JsMath) (planet : Planet) (i : ℕ) (t : ℚ)
    (he : entersPending M planet) :
    IsClosestApproach (threshold planet) ⌊t * 60⌋ [(dist0 M planet, ⌊t * 60⌋)]
      (checkOrbitCompletion M planet i t).1.lastDetectionDistance
      (checkOrbitCompletion M planet i t).1.lastDetectionFrame := by
  unfold checkOrbitCompletion
  simp only [startPending_of_enters M planet i t _ he]
  exact closest_after_sections _ i (dist0 M planet) (threshold planet) ⌊t * 60⌋ ⌊t * 60⌋ []
    (Nat.succ_pos _) (isClosest_nil _ _)

theorem check_closest_pending (M : JsMath) (planet : Planet) (i : ℕ) (t : ℚ) (f0 : ℤ)
    (l : List (ℚ × ℤ)) (hpos : 0 < planet.pendingOrbitCount)
    (h : IsClosestApproach (threshold planet) f0 l planet.lastDetectionDistance
      planet.lastDetectionFrame) :
    IsClosestApproach (threshold planet) f0 (l ++ [(dist0 M planet, ⌊t * 60⌋)])
      (checkOrbitCompletion M planet i t).1.lastDetectionDistance
      (checkOrbitCompletion M planet i t).1.lastDetectionFrame := by
  have hne : ¬ entersPending M planet := fun he => by
    have := he.1
    omega
  unfold checkOrbitCompletion
  simp only [startPending_of_not_enters M planet i t _ hne]
  exact closest_after_sections (accumulateAngle M planet) i (dist0 M planet) (threshold planet)
    ⌊t * 60⌋ f0 l hpos h

theorem check_pending_stays (M : JsMath) (planet : Planet) (i : ℕ) (t : ℚ)
    (hpos : 0 < planet.pendingOrbitCount) (hn : ¬ confirms M planet i t) :
    0 < (checkOrbitCompletion M planet i t).1.pendingOrbitCount := by
  rw [check_pending, if_neg hn,
    startPending_pending_of_pos (accumulateAngle M planet) i t _ hpos]
  exact hpos

theorem check_pending_entered (M : JsMath) (planet : Planet) (i : ℕ) (t : ℚ)
    (he : entersPending M planet) (hn : ¬ confirms M planet i t) :
    0 < (checkOrbitCompletion M planet i t).1.pendingOrbitCount := by
  rw [check_pending, if_neg hn, startPending_of_enters M planet i t _ he]
  exact Nat.succ_pos _

theorem samples_append (M : JsMath) (xs : List OrbitCall) (x : OrbitCall) :
    ∀ planet : Planet,
      samples M planet (xs ++ [x]) = samples M planet xs ++ [sampleOf M (runCalls M planet xs) x] := by
  induction xs with
  | nil => intro planet; rfl
  | cons c cs ih =>
    intro planet
    show sampleOf M planet c :: samples M (applyCall M planet c) (cs ++ [x]) = _
    rw [ih]
    rfl

theorem noneConfirms_append (M : JsMath) (xs : List OrbitCall) (x : OrbitCall) :
    ∀ planet : Planet, noneConfirms M planet (xs ++ [x]) →
      noneConfirms M planet xs ∧
        ¬ confirms M (atCall (runCalls M planet xs) x) x.planetIndex x.currentTime := by
  induction xs with
  | nil => intro planet h; exact ⟨trivial, h.1⟩
  | cons c cs ih =>
    intro planet h
    have := ih (applyCall M planet c) h.2
    exact ⟨⟨h.1, this.1⟩, this.2⟩

theorem window_closest (M : JsMath) (planet : Planet) (c0 : OrbitCall)
    (he : entersPending M (atCall planet c0)) (w : List OrbitCall) :
    noneConfirms M planet (c0 :: w) →
      0 < (runCalls M planet (c0 :: w)).pendingOrbitCount ∧
      IsClosestApproach (threshold planet) ⌊c0.currentTime * 60⌋ (samples M planet (c0 :: w))
        (runCalls M planet (c0 :: w)).lastDetectionDistance
        (runCalls M planet (c0 :: w)).lastDetectionFrame := by
  induction w using List.reverseRecOn with
  | nil =>
    intro h
    exact ⟨check_pending_entered M _ _ _ he h.1,
      check_closest_entering M (atCall planet c0) c0.planetIndex c0.currentTime he⟩
  | append_singleton w x ih =>
    intro h
    rw [← List.cons_append] at h ⊢
    obtain ⟨h1, h2⟩ := noneConfirms_append M (c0 :: w) x planet h
    obtain ⟨hpos, hcl⟩ := ih h1
    have hth : threshold (atCall (runCalls M planet (c0 :: w)) x) = threshold planet :=
      threshold_of_sameAnchor (runCalls_sameAnchor M (c0 :: w) planet)
    rw [runCalls_append, samples_append]
    refine ⟨check_pending_stays M _ _ _ hpos h2, ?_⟩
    have := check_closest_pending M (atCall (runCalls M planet (c0 :: w)) x) x.planetIndex
      x.currentTime ⌊c0.currentTime * 60⌋ (samples M planet (c0 :: w)) hpos
      (by rw [hth]; exact hcl)
    rw [hth] at this
    exact this

theorem check_confirm_display (M : JsMath) (planet : Planet) (i : ℕ) (t : ℚ)
    (hc : confirms M planet i t) :
    (checkOrbitCompletion M planet i t).2.getLast? =
      some { planetIndex := i
             orbitCount := (checkOrbitCompletion M planet i t).1.orbitCount
             simTime := ((checkOrbitCompletion M planet i t).1.lastDetectionFrame : ℚ) / 60
             isPending := false } := by
  have hc' : (updateClosest (startPending (accumulateAngle M planet) i t ⌊t * 60⌋).1 i
      (dist0 M planet) (threshold planet) ⌊t * 60⌋).1.pendingOrbitCount > 0 ∧
      dist0 M planet > threshold planet * 2 := hc
  unfold checkOrbitCompletion confirmOrbit
  simp only [if_pos hc']
  rw [List.getLast?_concat]
  simp [updateOrbitDisplay]

/-- C18: in a pending window that the call `c0` opens, after the opening call
and after every later call `c` that follows non-confirming calls `c0 :: w`,
`lastDetectionDistance` and `lastDetectionFrame` are the closest approach of
the window so far: the least `dist0` among the calls with `dist0 < threshold`
with the frame of the earliest call attaining it, or infinity with the frame
of the pending entry when there is no such call.  A confirming call reports
`lastDetectionFrame / 60` in its last display, a confirmed one. -/
theorem closest_approach_tracked (M : JsMath) (planet : Planet) (c0 : OrbitCall)
    (he : entersPending M (atCall planet c0)) :
    IsClosestApproach (threshold planet) ⌊c0.currentTime * 60⌋ (samples M planet [c0])
      (runCalls M planet [c0]).lastDetectionDistance
      (runCalls M planet [c0]).lastDetectionFrame ∧
    (∀ (w : List OrbitCall) (c : OrbitCall), noneConfirms M planet (c0 :: w) →
      IsClosestApproach (threshold planet) ⌊c0.currentTime * 60⌋
        (samples M planet (c0 :: w ++ [c]))
        (runCalls M planet (c0 :: w ++ [c])).lastDetectionDistance
        (runCalls M planet (c0 :: w ++ [c])).lastDetectionFrame) ∧
    (∀ (q : Planet) (i : ℕ) (t : ℚ), confirms M q i t →
      (checkOrbitCompletion M q i t).2.getLast? =
        some { planetIndex := i
               orbitCount := (checkOrbitCompletion M q i t).1.orbitCount
               simTime := ((checkOrbitCompletion M q i t).1.lastDetectionFrame : ℚ) / 60
               isPending := false }) := by
  refine ⟨check_closest_entering M (atCall planet c0) c0.planetIndex c0.currentTime he,
    fun w c hw => ?_, fun q i t hc => check_confirm_display M q i t hc⟩
  obtain ⟨hpos, hcl⟩ := window_closest M planet c0 he w hw
  have hth : threshold (atCall (runCalls M planet (c0 :: w)) c) = threshold planet :=
    threshold_of_sameAnchor (runCalls_sameAnchor M (c0 :: w) planet)
  rw [runCalls_append, samples_append]
  have := check_closest_pending M (atCall (runCalls M planet (c0 :: w)) c) c.planetIndex
    c.currentTime ⌊c0.currentTime * 60⌋ (samples M planet (c0 :: w)) hpos
    (by rw [hth]; exact hcl)
  rw [hth] at this
  exact this

/-- C18 (instance): the window that the fourth quarter turn opens. -/
theorem closest_approach_tracked_witness :
    entersPending ratMath (atCall threeQuarters quarter4) ∧
    IsClosestApproach (threshold threeQuarters) ⌊quarter4.currentTime * 60⌋
      (samples ratMath threeQuarters [quarter4])
      (runCalls ratMath threeQuarters [quarter4]).lastDetectionDistance
      (runCalls ratMath threeQuarters [quarter4]).lastDetectionFrame :=
  ⟨quarter4_enters, (closest_approach_tracked ratMath threeQuarters quarter4 quarter4_enters).1⟩


/-! ## Theorems: configuration edits -/

theorem initTracker_newPlanet (M : JsMath) (c : PlanetConfig) :
    initTracker M (newPlanet M c) = newPlanet M c := rfl

theorem set_getElem?_self {α : Type} (l : List α) (i : ℕ) (a : α) (h : l[i]? = some a) :
    l.set i a = l := by
  apply List.ext_getElem?
  intro j
  rw [List.getElem?_set]
  split_ifs with hj hlt
  · rw [← hj, h]
  · rw [← hj, List.getElem?_eq_none (not_lt.mp hlt)]
  · rfl

theorem addPlanet_rebuilt (M : JsMath) (s : SimState) (color : String) :
    (addPlanet M s color).planetConfigs = s.planetConfigs ++ [addedConfig s color] ∧
    RebuiltFromConfigs M (addPlanet M s color) := by
  have hlast : ((s.planetConfigs ++ [addedConfig s color]).map (newPlanet M))[
      ((s.planetConfigs ++ [addedConfig s color]).map (newPlanet M)).length - 1]? =
      some (newPlanet M (addedConfig s color)) := by
    simp
  have hadd : addPlanet M s color =
      createPlanets M { s with planetConfigs := s.planetConfigs ++ [addedConfig s color] } := by
    unfold addPlanet
    simp only [createPlanets]
    rw [hlast]
    simp only [initTracker_newPlanet]
    rw [set_getElem?_self _ _ _ hlast]
  rw [hadd]
  exact ⟨rfl, rfl⟩

theorem removePlanet_rebuilt (M : JsMath) (s : SimState) (index : ℤ) (h : index ≠ 0) :
    RebuiltFromConfigs M (removePlanet M s index) := by
  unfold removePlanet
  rw [if_neg h]
  rfl

theorem updateConfig_rebuilt (M : JsMath) (parseFloat toNumber : String → Option ℚ)
    (s s' : SimState)
    (index : ℕ) (property : Property) (value : String)
    (h : updateConfig M parseFloat toNumber s index property value = .rebuilt s') :
    RebuiltFromConfigs M s' := by
  unfold updateConfig at h
  cases hc : s.planetConfigs[index]? with
  | none => rw [hc] at h; exact EditOutcome.noConfusion h
  | some config =>
    rw [hc] at h
    simp only [] at h
    cases ho : storedToConfig? (assignProperty parseFloat config property value) with
    | none => rw [ho] at h; exact EditOutcome.noConfusion h
    | some config' =>
      rw [ho] at h
      simp only [] at h
      have := EditOutcome.rebuilt.inj h
      rw [← this]
      rfl

theorem parsedOrRaw_number (parseFloat : String → Option ℚ) (value : String) (q : ℚ)
    (h : parseFloat value = some q) (hq : q ≠ 0) : parsedOrRaw parseFloat value = .num q := by
  unfold parsedOrRaw
  rw [h]
  simp only [if_neg hq]

theorem parsedOrRaw_zero (parseFloat : String → Option ℚ) (value : String)
    (h : parseFloat value = some 0) : parsedOrRaw parseFloat value = .str value := by
  unfold parsedOrRaw
  rw [h]
  simp

theorem parsedOrRaw_nan (parseFloat : String → Option ℚ) (value : String)
    (h : parseFloat value = none) : parsedOrRaw parseFloat value = .str value := by
  unfold parsedOrRaw
  rw [h]

theorem storedToConfig_toStored (c : PlanetConfig) : storedToConfig? c.toStored = some c := rfl

theorem storedToConfig_setNumber (c : PlanetConfig) (property : Property) (q : ℚ)
    (h : property.isNumeric = true) :
    storedToConfig? (Function.update c.toStored property (.num q))
      = some (c.setNumber property q) := by
  cases property <;>
    first
    | exact absurd h (by decide)
    | simp [storedToConfig?, Function.update, PlanetConfig.toStored, PlanetConfig.setNumber,
        ConfigValue.num?, ConfigValue.str?]

theorem storedToConfig_string (c : PlanetConfig) (property : Property) (v : String)
    (h : property.isNumeric = true) :
    storedToConfig? (Function.update c.toStored property (.str v)) = none := by
  cases property <;>
    first
    | exact absurd h (by decide)
    | simp [storedToConfig?, Function.update, PlanetConfig.toStored,
        ConfigValue.num?, ConfigValue.str?]

theorem updateConfig_of_some (M : JsMath) (parseFloat toNumber : String → Option ℚ)
    (s : SimState)
    (index : ℕ) (property : Property) (value : String) (config config' : PlanetConfig)
    (hc : s.planetConfigs[index]? = some config)
    (ho : storedToConfig? (assignProperty parseFloat config property value) = some config') :
    updateConfig M parseFloat toNumber s index property value =
      .rebuilt (createPlanets M { s with planetConfigs := s.planetConfigs.set index config' }) := by
  unfold updateConfig
  rw [hc]
  simp only []
  rw [ho]

theorem updateConfig_of_none (M : JsMath) (parseFloat toNumber : String → Option ℚ)
    (s : SimState)
    (index : ℕ) (property : Property) (value : String) (config : PlanetConfig)
    (hc : s.planetConfigs[index]? = some config)
    (ho : storedToConfig? (assignProperty parseFloat config property value) = none) :
    updateConfig M parseFloat toNumber s index property value =
      .mistyped index (assignProperty parseFloat config property value)
        (editedState M toNumber s index (assignProperty parseFloat config property value)) := by
  unfold updateConfig
  rw [hc]
  simp only []
  rw [ho]

theorem assignProperty_same (parseFloat : String → Option ℚ) (config : PlanetConfig)
    (property : Property) (value : String) :
    assignProperty parseFloat config property value property = parsedOrRaw parseFloat value := by
  unfold assignProperty
  exact Function.update_same _ _ _

theorem assignProperty_other (parseFloat : String → Option ℚ) (config : PlanetConfig)
    (property p : Property) (value : String) (h : p ≠ property) :
    assignProperty parseFloat config property value p = config.toStored p := by
  unfold assignProperty
  exact Function.update_noteq h _ _

theorem updateConfig_number (M : JsMath) (parseFloat toNumber : String → Option ℚ)
    (s : SimState)
    (index : ℕ) (property : Property) (value : String) (config : PlanetConfig) (q : ℚ)
    (hc : s.planetConfigs[index]? = some config) (hp : property.isNumeric = true)
    (hv : parseFloat value = some q) (hq : q ≠ 0) :
    updateConfig M parseFloat toNumber s index property value =
      .rebuilt (createPlanets M
        { s with planetConfigs := s.planetConfigs.set index (config.setNumber property q) }) := by
  apply updateConfig_of_some M parseFloat toNumber s index property value config _ hc
  unfold assignProperty
  rw [parsedOrRaw_number parseFloat value q hv hq]
  exact storedToConfig_setNumber config property q hp

theorem updateConfig_string (M : JsMath) (parseFloat toNumber : String → Option ℚ)
    (s : SimState)
    (index : ℕ) (property : Property) (value : String) (config : PlanetConfig)
    (hc : s.planetConfigs[index]? = some config) (hp : property.isNumeric = true)
    (hv : parsedOrRaw parseFloat value = .str value) :
    updateConfig M parseFloat toNumber s index property value =
      .mistyped index (assignProperty parseFloat config property value)
        (editedState M toNumber s index (assignProperty parseFloat config property value)) := by
  apply updateConfig_of_none M parseFloat toNumber s index property value config hc
  unfold assignProperty
  rw [hv]
  exact storedToConfig_string config property value hp

theorem newPlanet_fields (M : JsMath) (c : PlanetConfig) :
    (newPlanet M c).mass = c.mass ∧
    (newPlanet M c).position = ⟨c.x, c.y, c.z⟩ ∧
    (newPlanet M c).velocity = ⟨c.vx, c.vy, c.vz⟩ ∧
    (newPlanet M c).trail = [] ∧
    (newPlanet M c).orbitCount = 0 ∧
    (newPlanet M c).pendingOrbitCount = 0 ∧
    (newPlanet M c).angleAccumulated = 0 ∧
    (newPlanet M c).prevRelPos = ⟨c.x, c.y, c.z⟩ ∧
    (newPlanet M c).initialPosition = ⟨c.x, c.y, c.z⟩ := by
  refine ⟨rfl, rfl, rfl, rfl, rfl, rfl, rfl, ?_, ?_⟩ <;>
    simp [newPlanet, Vector3.subVectors]


theorem str?_eq_some (v : ConfigValue) (s : String) (h : v.str? = some s) : v = .str s := by
  cases v with
  | num q => exact Option.noConfusion h
  | str t => rw [Option.some.inj h]

theorem num?_eq_some (v : ConfigValue) (q : ℚ) (h : v.num? = some q) : v = .num q := by
  cases v with
  | num r => rw [Option.some.inj h]
  | str t => exact Option.noConfusion h

theorem storedToConfig_eq (o : StoredConfig) (c : PlanetConfig)
    (h : storedToConfig? o = some c) : o = c.toStored := by
  unfold storedToConfig? at h
  simp only [Option.bind_eq_bind, Option.bind_eq_some, Option.pure_def, Option.some.injEq] at h
  obtain ⟨name, hname, mass, hmass, radius, hradius, x, hx, y, hy, z, hz, vx, hvx, vy, hvy,
    vz, hvz, color, hcolor, rfl⟩ := h
  funext p
  cases p
  · exact str?_eq_some _ _ hname
  · exact num?_eq_some _ _ hmass
  · exact num?_eq_some _ _ hradius
  · exact num?_eq_some _ _ hx
  · exact num?_eq_some _ _ hy
  · exact num?_eq_some _ _ hz
  · exact num?_eq_some _ _ hvx
  · exact num?_eq_some _ _ hvy
  · exact num?_eq_some _ _ hvz
  · exact str?_eq_some _ _ hcolor

theorem nanLift_some (f : ℚ → ℚ → ℚ) (a b : ℚ) : nanLift f (some a) (some b) = some (f a b) :=
  rfl

theorem newStoredPlanet_toStored (M : JsMath) (toNumber : String → Option ℚ)
    (c : PlanetConfig) :
    newStoredPlanet M toNumber c.toStored = (newPlanet M c).toStored := by
  simp [newStoredPlanet, newPlanet, Planet.toStored, PlanetConfig.toStored, Vector3.toStored,
    Vector3.toNan, NanVector3.subVectors, NanVector3.cross, NanVector3.normalize,
    NanVector3.divideScalar, NanVector3.multiplyScalar, NanVector3.length, nanLift_some,
    nanOrElse, ConfigValue.toNumber, Vector3.subVectors, Vector3.crossVectors,
    Vector3.normalize, Vector3.divideScalar, Vector3.multiplyScalar, Vector3.length]

theorem nanLift_sub_zero (a : Option ℚ) : nanLift (fun p q => p - q) a (some 0) = a := by
  cases a with
  | none => rfl
  | some x => simp [nanLift]

theorem newStoredPlanet_fields (M : JsMath) (toNumber : String → Option ℚ) (o : StoredConfig) :
    (newStoredPlanet M toNumber o).mass = o .mass ∧
    (newStoredPlanet M toNumber o).position = ⟨o .x, o .y, o .z⟩ ∧
    (newStoredPlanet M toNumber o).velocity = ⟨o .vx, o .vy, o .vz⟩ ∧
    (newStoredPlanet M toNumber o).trail = [] ∧
    (newStoredPlanet M toNumber o).orbitCount = 0 ∧
    (newStoredPlanet M toNumber o).pendingOrbitCount = 0 ∧
    (newStoredPlanet M toNumber o).angleAccumulated = 0 ∧
    (newStoredPlanet M toNumber o).prevRelPos = (newStoredPlanet M toNumber o).initialPosition ∧
    (newStoredPlanet M toNumber o).initialPosition =
      ⟨(o .x).toNumber toNumber, (o .y).toNumber toNumber, (o .z).toNumber toNumber⟩ := by
  refine ⟨rfl, rfl, rfl, rfl, rfl, rfl, rfl, rfl, ?_⟩
  simp [newStoredPlanet, NanVector3.subVectors, nanLift_sub_zero]

theorem updateConfig_state (M : JsMath) (parseFloat toNumber : String → Option ℚ)
    (s : SimState) (index : ℕ) (property : Property) (value : String) (config : PlanetConfig)
    (hc : s.planetConfigs[index]? = some config) :
    (updateConfig M parseFloat toNumber s index property value).state? =
      some (editedState M toNumber s index (assignProperty parseFloat config property value)) := by
  cases ho : storedToConfig? (assignProperty parseFloat config property value) with
  | none =>
    rw [updateConfig_of_none M parseFloat toNumber s index property value config hc ho]
    rfl
  | some config' =>
    rw [updateConfig_of_some M parseFloat toNumber s index property value config config' hc ho,
      storedToConfig_eq _ _ ho]
    show some (createPlanets M
      { s with planetConfigs := s.planetConfigs.set index config' }).toStored = _
    have hfun : (Planet.toStored ∘ newPlanet M)
        = (newStoredPlanet M toNumber ∘ PlanetConfig.toStored) :=
      funext fun c => (newStoredPlanet_toStored M toNumber c).symm
    unfold editedState SimState.toStored createPlanets
    simp only [List.map_set, List.map_map, hfun, newStoredPlanet_toStored]

/-- C14: after `addPlanet`, after `removePlanet` with an index of at least 1 and
after every `updateConfig` on an existing configuration, whatever the value,
the body list is rebuilt from the configurations: one body per configuration,
in order, each holding the mass, position and velocity that its
configuration holds, with an empty trail and a fresh tracker whose
`prevRelPos` and `initialPosition` are the position as numbers.  Where the
configurations hold numbers these are the fresh bodies of the numeric
model. -/
theorem edits_rebuild_all_bodies (M : JsMath) (s : SimState) :
    (∀ color : String,
      (addPlanet M s color).planetConfigs = s.planetConfigs ++ [addedConfig s color] ∧
      RebuiltFromConfigs M (addPlanet M s color)) ∧
    (∀ index : ℤ, 1 ≤ index → RebuiltFromConfigs M (removePlanet M s index)) ∧
    (∀ (parseFloat toNumber : String → Option ℚ) (index : ℕ) (property : Property)
      (value : String) (config : PlanetConfig), s.planetConfigs[index]? = some config →
        ∃ st : StoredState,
          (updateConfig M parseFloat toNumber s index property value).state? = some st ∧
          st.planetConfigs = (s.planetConfigs.map PlanetConfig.toStored).set index
            (assignProperty parseFloat config property value) ∧
          st.planets = st.planetConfigs.map (newStoredPlanet M toNumber) ∧
          st.planets.length = s.planetConfigs.length ∧
          st.isRunning = s.isRunning ∧ st.time = s.time) ∧
    (∀ (parseFloat toNumber : String → Option ℚ) (index : ℕ) (property : Property)
      (value : String) (s' : SimState),
        updateConfig M parseFloat toNumber s index property value = .rebuilt s' →
          RebuiltFromConfigs M s') ∧
    (∀ (parseFloat toNumber : String → Option ℚ) (index : ℕ) (property : Property)
      (value : String) (config : PlanetConfig) (q : ℚ), s.planetConfigs[index]? = some config →
        property.isNumeric = true → parseFloat value = some q → q ≠ 0 →
        updateConfig M parseFloat toNumber s index property value =
          .rebuilt (createPlanets M
            { s with
              planetConfigs := s.planetConfigs.set index (config.setNumber property q) })) ∧
    (∀ (toNumber : String → Option ℚ) (o : StoredConfig),
      (newStoredPlanet M toNumber o).mass = o .mass ∧
      (newStoredPlanet M toNumber o).position = ⟨o .x, o .y, o .z⟩ ∧
      (newStoredPlanet M toNumber o).velocity = ⟨o .vx, o .vy, o .vz⟩ ∧
      (newStoredPlanet M toNumber o).trail = [] ∧
      (newStoredPlanet M toNumber o).orbitCount = 0 ∧
      (newStoredPlanet M toNumber o).pendingOrbitCount = 0 ∧
      (newStoredPlanet M toNumber o).angleAccumulated = 0 ∧
      (newStoredPlanet M toNumber o).prevRelPos
        = (newStoredPlanet M toNumber o).initialPosition ∧
      (newStoredPlanet M toNumber o).initialPosition =
        ⟨(o .x).toNumber toNumber, (o .y).toNumber toNumber, (o .z).toNumber toNumber⟩) ∧
    (∀ (toNumber : String → Option ℚ) (c : PlanetConfig),
      newStoredPlanet M toNumber c.toStored = (newPlanet M c).toStored) ∧
    (∀ t : SimState, RebuiltFromConfigs M t →
      t.planets.length = t.planetConfigs.length ∧
      ∀ (i : ℕ) (c : PlanetConfig), t.planetConfigs[i]? = some c →
        ∃ p : Planet, t.planets[i]? = some p ∧
          p.mass = c.mass ∧ p.position = ⟨c.x, c.y, c.z⟩ ∧ p.velocity = ⟨c.vx, c.vy, c.vz⟩ ∧
          p.trail = [] ∧ p.orbitCount = 0 ∧ p.pendingOrbitCount = 0 ∧
          p.angleAccumulated = 0 ∧ p.prevRelPos = ⟨c.x, c.y, c.z⟩ ∧
          p.initialPosition = ⟨c.x, c.y, c.z⟩) := by
  refine ⟨fun color => addPlanet_rebuilt M s color,
    fun index h => removePlanet_rebuilt M s index (by omega),
    fun pf tn index property value config hc =>
      ⟨_, updateConfig_state M pf tn s index property value config hc, rfl, rfl, ?_, rfl, rfl⟩,
    fun pf tn index property value s' h =>
      updateConfig_rebuilt M pf tn s s' index property value h,
    fun pf tn index property value config q hc hp hv hq =>
      updateConfig_number M pf tn s index property value config q hc hp hv hq,
    fun tn o => newStoredPlanet_fields M tn o,
    fun tn c => newStoredPlanet_toStored M tn c,
    fun t ht => ⟨by rw [ht, List.length_map], fun i c hi => ?_⟩⟩
  · simp [editedState]
  · refine ⟨newPlanet M c, ?_, newPlanet_fields M c⟩
    rw [ht, List.getElem?_map, hi]
    rfl

/-- C15 (counterexample): clearing the mass input of the first configuration
(the empty string does not parse) stores the empty string in `mass`, not the
previous mass. -/
theorem unparsable_input_is_stored :
    digitsParse "" = none ∧
    assignProperty digitsParse centralConfig .mass "" .mass = .str "" ∧
    assignProperty digitsParse centralConfig .mass "" .mass ≠ centralConfig.toStored .mass ∧
    updateConfig ratMath digitsParse digitsNumber twoBodies 0 .mass "" =
      .mistyped 0 (assignProperty digitsParse centralConfig .mass "")
        (editedState ratMath digitsNumber twoBodies 0
          (assignProperty digitsParse centralConfig .mass "")) := by
  have hnan : digitsParse "" = none := rfl
  have hs : assignProperty digitsParse centralConfig .mass "" .mass = .str "" := by
    rw [assignProperty_same, parsedOrRaw_nan digitsParse "" hnan]
  refine ⟨hnan, hs, ?_, ?_⟩
  · rw [hs]
    exact fun h => ConfigValue.noConfusion h
  · exact updateConfig_string ratMath digitsParse digitsNumber twoBodies 0 .mass ""
      centralConfig rfl rfl
      (parsedOrRaw_nan digitsParse "" hnan)

/-- C15 (as amended): when the value does not parse as a number, the raw input
string is what the property holds afterwards; the other properties of the
object are as before.  For a numeric property the call therefore ends with a
string in that property. -/
theorem unparsable_input_stores_raw (M : JsMath) (parseFloat toNumber : String → Option ℚ)
    (s : SimState) (index : ℕ) (property : Property) (value : String) (config : PlanetConfig)
    (hc : s.planetConfigs[index]? = some config) (hv : parseFloat value = none) :
    assignProperty parseFloat config property value property = .str value ∧
    (∀ p : Property, p ≠ property →
      assignProperty parseFloat config property value p = config.toStored p) ∧
    (property.isNumeric = true →
      updateConfig M parseFloat toNumber s index property value =
        .mistyped index (assignProperty parseFloat config property value)
          (editedState M toNumber s index
            (assignProperty parseFloat config property value))) := by
  refine ⟨?_, fun p hp => assignProperty_other parseFloat config property p value hp,
    fun hp => updateConfig_string M parseFloat toNumber s index property value config hc hp
      (parsedOrRaw_nan parseFloat value hv)⟩
  rw [assignProperty_same, parsedOrRaw_nan parseFloat value hv]

/-- C15 (instance): the empty string in the mass input of the first
configuration. -/
theorem unparsable_input_stores_raw_witness :
    twoBodies.planetConfigs[0]? = some centralConfig ∧ digitsParse "" = none ∧
    assignProperty digitsParse centralConfig .mass "" .mass = .str "" :=
  ⟨rfl, rfl, (unparsable_input_stores_raw ratMath digitsParse digitsNumber twoBodies 0 .mass ""
    centralConfig rfl rfl).1⟩

/-- C20 (evaluation): a value that parses to a non-zero number is stored as
that number and the other properties are untouched; but for the input `"0"`
in the `x` input of the second configuration the property ends up holding
the string `"0"`, not the number 0. -/
theorem zero_input_is_stored_as_string :
    (∀ (parseFloat : String → Option ℚ) (config : PlanetConfig) (property : Property)
      (value : String) (q : ℚ), parseFloat value = some q → q ≠ 0 →
        assignProperty parseFloat config property value property = .num q ∧
        ∀ p : Property, p ≠ property →
          assignProperty parseFloat config property value p = config.toStored p) ∧
    digitsParse "0" = some 0 ∧
    assignProperty digitsParse heavyConfig .x "0" .x = .str "0" ∧
    assignProperty digitsParse heavyConfig .x "0" .x ≠ .num 0 ∧
    updateConfig ratMath digitsParse digitsNumber twoBodies 1 .x "0" =
      .mistyped 1 (assignProperty digitsParse heavyConfig .x "0")
        (editedState ratMath digitsNumber twoBodies 1
          (assignProperty digitsParse heavyConfig .x "0")) := by
  have hz : digitsParse "0" = some 0 := by decide
  have hs : assignProperty digitsParse heavyConfig .x "0" .x = .str "0" := by
    rw [assignProperty_same, parsedOrRaw_zero digitsParse "0" hz]
  refine ⟨fun pf config property value q hv hq => ⟨?_, fun p hp =>
    assignProperty_other pf config property p value hp⟩, hz, hs, ?_, ?_⟩
  · rw [assignProperty_same, parsedOrRaw_number pf value q hv hq]
  · rw [hs]
    exact fun h => ConfigValue.noConfusion h
  · exact updateConfig_string ratMath digitsParse digitsNumber twoBodies 1 .x "0"
      heavyConfig rfl rfl
      (parsedOrRaw_zero digitsParse "0" hz)

theorem twoBodies_configs : twoBodies.planetConfigs = [centralConfig, heavyConfig] := rfl

/-- C14 (instance): typing `0` into the x input of the second of two
configurations.  Both bodies are rebuilt; the second one holds the string
`"0"` as the x of its position, and its tracker starts from the number 0. -/
theorem edits_rebuild_all_bodies_witness :
    ∃ st : StoredState,
      (updateConfig ratMath digitsParse digitsNumber twoBodies 1 .x "0").state? = some st ∧
      st.planets.length = 2 ∧
      st.planets[0]? = some (newPlanet ratMath centralConfig).toStored ∧
      st.planets[1]? = some (newStoredPlanet ratMath digitsNumber
        (assignProperty digitsParse heavyConfig .x "0")) ∧
      (newStoredPlanet ratMath digitsNumber
        (assignProperty digitsParse heavyConfig .x "0")).position.x = .str "0" ∧
      (newStoredPlanet ratMath digitsNumber
        (assignProperty digitsParse heavyConfig .x "0")).prevRelPos.x = some 0 := by
  obtain ⟨st, hst, hcfg, hpl, hlen, _, _⟩ :=
    (edits_rebuild_all_bodies ratMath twoBodies).2.2.1 digitsParse digitsNumber 1 .x "0"
      heavyConfig rfl
  have hz : digitsParse "0" = some 0 := by decide
  have hx : assignProperty digitsParse heavyConfig .x "0" .x = .str "0" := by
    rw [assignProperty_same, parsedOrRaw_zero digitsParse "0" hz]
  have hf := newStoredPlanet_fields ratMath digitsNumber
    (assignProperty digitsParse heavyConfig .x "0")
  refine ⟨st, hst, ?_, ?_, ?_, ?_, ?_⟩
  · rw [hlen, twoBodies_configs]
    rfl
  · rw [hpl, hcfg, twoBodies_configs]
    simp only [List.map_cons, List.map_nil, List.set_cons_succ, List.set_cons_zero,
      List.getElem?_cons_zero]
    rw [newStoredPlanet_toStored]
  · rw [hpl, hcfg, twoBodies_configs]
    simp only [List.map_cons, List.map_nil, List.set_cons_succ, List.set_cons_zero,
      List.getElem?_cons_succ, List.getElem?_cons_zero]
  · rw [hf.2.1]
    exact hx
  · rw [hf.2.2.2.2.2.2.2.1, hf.2.2.2.2.2.2.2.2]
    show (assignProperty digitsParse heavyConfig .x "0" .x).toNumber digitsNumber = some 0
    rw [hx]
    decide

end Thurs3
